import Mathlib

/-!
Verification development for the kash.py message codec and pipeline core
(`src/kash.py`).  The Python source is shallowly embedded: pure helpers become
Lean functions, the mutable `Cluster` object becomes an explicit state record
threaded through each operation, exceptions become `Except`, and the external
collaborators (schema registry, confluent serializers, JSON library, broker)
are modelled at their interface boundary as parameters.

Text payloads are modelled as `List Nat` of Unicode scalar values and wire
payloads as `List Nat` of bytes; Python's implicit str/bytes UTF-8 conversion
at the producer/consumer boundary is modelled by an executable UTF-8 codec.
-/

namespace Kash

/-! ## Constants (kash.py lines 21-22 and confluent_kafka constants) -/

/-- `ALL_MESSAGES = -1` (kash.py line 21). -/
def ALL_MESSAGES : Int := -1

/-- `RD_KAFKA_PARTITION_UA = -1` (kash.py line 22). -/
def RD_KAFKA_PARTITION_UA : Int := -1

/-- confluent_kafka `OFFSET_INVALID` sentinel. -/
def OFFSET_INVALID : Int := -1001

/-- confluent_kafka `TIMESTAMP_NOT_AVAILABLE`. -/
def TIMESTAMP_NOT_AVAILABLE : Nat := 0

/-- confluent_kafka `TIMESTAMP_CREATE_TIME` (used at kash.py line 369). -/
def TIMESTAMP_CREATE_TIME : Nat := 1

/-- confluent_kafka `TIMESTAMP_LOG_APPEND_TIME`. -/
def TIMESTAMP_LOG_APPEND_TIME : Nat := 2

/-! ## UTF-8 codec

Models Python's `str.encode("utf-8")` / `bytes.decode("utf-8")`, which the
source relies on at the producer boundary (str payloads handed to
`producer.produce`) and in `bytes_to_str` (kash.py lines 599-603).
Characters are Unicode scalar values. -/

/-- A Unicode scalar value: in range and not a surrogate. -/
def validChar (c : Nat) : Prop := c < 0x110000 ∧ (c < 0xD800 ∨ 0xE000 ≤ c)

instance (c : Nat) : Decidable (validChar c) := by unfold validChar; infer_instance

/-- All characters of a text are Unicode scalar values. -/
def validString (s : List Nat) : Prop := ∀ c ∈ s, validChar c

instance (s : List Nat) : Decidable (validString s) := by
  unfold validString; infer_instance

/-- UTF-8 encoding of one scalar value. -/
def utf8EncodeChar (c : Nat) : List Nat :=
  if c < 0x80 then [c]
  else if c < 0x800 then [0xC0 + c / 0x40, 0x80 + c % 0x40]
  else if c < 0x10000 then
    [0xE0 + c / 0x1000, 0x80 + c / 0x40 % 0x40, 0x80 + c % 0x40]
  else
    [0xF0 + c / 0x40000, 0x80 + c / 0x1000 % 0x40, 0x80 + c / 0x40 % 0x40,
     0x80 + c % 0x40]

/-- UTF-8 encoding of a text. -/
def utf8Encode : List Nat → List Nat
  | [] => []
  | c :: cs => utf8EncodeChar c ++ utf8Encode cs

/-- Consume `need` UTF-8 continuation bytes, accumulating the scalar value. -/
def utf8TakeCont : Nat → Nat → List Nat → Option (Nat × List Nat)
  | 0, acc, bs => some (acc, bs)
  | _ + 1, _, [] => none
  | need + 1, acc, b :: bs =>
    if 0x80 ≤ b ∧ b < 0xC0 then utf8TakeCont need (acc * 0x40 + (b - 0x80)) bs
    else none

/-- Strict UTF-8 decoding with fuel (one unit of fuel per decoded character;
each character consumes at least one byte, so `length` fuel always suffices).
A completed character must be a Unicode scalar value whose canonical encoding
has exactly the consumed length: this rejects overlong forms, surrogates and
values beyond U+10FFFF, like Python's strict `bytes.decode("utf-8")`. -/
def utf8DecodeF : Nat → List Nat → Option (List Nat)
  | _, [] => some []
  | 0, _ :: _ => none
  | f + 1, b :: bs =>
    if b < 0x80 then (utf8DecodeF f bs).map (b :: ·)
    else if 0xC2 ≤ b ∧ b < 0xE0 then
      match utf8TakeCont 1 (b - 0xC0) bs with
      | some (c, rest) =>
        if validChar c ∧ (utf8EncodeChar c).length = 2 then
          (utf8DecodeF f rest).map (c :: ·)
        else none
      | none => none
    else if 0xE0 ≤ b ∧ b < 0xF0 then
      match utf8TakeCont 2 (b - 0xE0) bs with
      | some (c, rest) =>
        if validChar c ∧ (utf8EncodeChar c).length = 3 then
          (utf8DecodeF f rest).map (c :: ·)
        else none
      | none => none
    else if 0xF0 ≤ b ∧ b < 0xF5 then
      match utf8TakeCont 3 (b - 0xF0) bs with
      | some (c, rest) =>
        if validChar c ∧ (utf8EncodeChar c).length = 4 then
          (utf8DecodeF f rest).map (c :: ·)
        else none
      | none => none
    else none

/-- Strict UTF-8 decoding, Python's `bytes.decode("utf-8")`. -/
def utf8Decode (bs : List Nat) : Option (List Nat) := utf8DecodeF bs.length bs

theorem utf8EncodeChar_ne_nil (c : Nat) : utf8EncodeChar c ≠ [] := by
  unfold utf8EncodeChar
  split
  · simp
  · split
    · simp
    · split <;> simp

theorem utf8Encode_ne_nil {s : List Nat} (h : s ≠ []) : utf8Encode s ≠ [] := by
  cases s with
  | nil => exact absurd rfl h
  | cons c cs =>
    show utf8EncodeChar c ++ utf8Encode cs ≠ []
    simp [utf8EncodeChar_ne_nil]

theorem utf8EncodeChar_length (c : Nat) :
    (utf8EncodeChar c).length =
      if c < 0x80 then 1 else if c < 0x800 then 2
      else if c < 0x10000 then 3 else 4 := by
  unfold utf8EncodeChar
  split
  · simp_all
  · split
    · simp_all
    · split <;> simp_all

theorem utf8TakeCont_zero (acc : Nat) (bs : List Nat) :
    utf8TakeCont 0 acc bs = some (acc, bs) := rfl

theorem utf8TakeCont_succ (need acc b : Nat) (bs : List Nat)
    (h : 0x80 ≤ b ∧ b < 0xC0) :
    utf8TakeCont (need + 1) acc (b :: bs) =
      utf8TakeCont need (acc * 0x40 + (b - 0x80)) bs := by
  conv_lhs => rw [utf8TakeCont]
  rw [if_pos h]

theorem utf8DecodeF_cons1 (f b : Nat) (bs : List Nat) (h : b < 0x80) :
    utf8DecodeF (f + 1) (b :: bs) = (utf8DecodeF f bs).map (b :: ·) := by
  conv_lhs => rw [utf8DecodeF]
  rw [if_pos h]

theorem utf8DecodeF_cons2 (f b : Nat) (bs : List Nat)
    (h : 0xC2 ≤ b ∧ b < 0xE0) :
    utf8DecodeF (f + 1) (b :: bs) =
      match utf8TakeCont 1 (b - 0xC0) bs with
      | some (c, rest) =>
        if validChar c ∧ (utf8EncodeChar c).length = 2 then
          (utf8DecodeF f rest).map (c :: ·)
        else none
      | none => none := by
  conv_lhs => rw [utf8DecodeF]
  rw [if_neg (by omega), if_pos h]

theorem utf8DecodeF_cons3 (f b : Nat) (bs : List Nat)
    (h : 0xE0 ≤ b ∧ b < 0xF0) :
    utf8DecodeF (f + 1) (b :: bs) =
      match utf8TakeCont 2 (b - 0xE0) bs with
      | some (c, rest) =>
        if validChar c ∧ (utf8EncodeChar c).length = 3 then
          (utf8DecodeF f rest).map (c :: ·)
        else none
      | none => none := by
  conv_lhs => rw [utf8DecodeF]
  rw [if_neg (by omega), if_neg (by omega), if_pos h]

theorem utf8DecodeF_cons4 (f b : Nat) (bs : List Nat)
    (h : 0xF0 ≤ b ∧ b < 0xF5) :
    utf8DecodeF (f + 1) (b :: bs) =
      match utf8TakeCont 3 (b - 0xF0) bs with
      | some (c, rest) =>
        if validChar c ∧ (utf8EncodeChar c).length = 4 then
          (utf8DecodeF f rest).map (c :: ·)
        else none
      | none => none := by
  conv_lhs => rw [utf8DecodeF]
  rw [if_neg (by omega), if_neg (by omega), if_neg (by omega), if_pos h]

theorem utf8DecodeF_encodeChar (f c : Nat) (h : validChar c)
    (rest : List Nat) :
    utf8DecodeF (f + 1) (utf8EncodeChar c ++ rest) =
      (utf8DecodeF f rest).map (c :: ·) := by
  obtain ⟨h1, h2⟩ := h
  by_cases hc0 : c < 0x80
  · have he : utf8EncodeChar c = [c] := by unfold utf8EncodeChar; rw [if_pos hc0]
    rw [he]
    exact utf8DecodeF_cons1 f c rest hc0
  · by_cases hc1 : c < 0x800
    · have he : utf8EncodeChar c = [0xC0 + c / 0x40, 0x80 + c % 0x40] := by
        unfold utf8EncodeChar; rw [if_neg hc0, if_pos hc1]
      rw [he]
      show utf8DecodeF (f + 1)
        ((0xC0 + c / 0x40) :: (0x80 + c % 0x40) :: rest) = _
      rw [utf8DecodeF_cons2 f _ _ (by omega),
        utf8TakeCont_succ 0 _ _ rest (by omega), utf8TakeCont_zero,
        show (0xC0 + c / 0x40 - 0xC0) * 0x40 + (0x80 + c % 0x40 - 0x80) = c
          from by omega]
      show (if validChar c ∧ (utf8EncodeChar c).length = 2 then
          (utf8DecodeF f rest).map (c :: ·) else none) = _
      rw [if_pos ⟨⟨h1, h2⟩,
        by rw [utf8EncodeChar_length, if_neg hc0, if_pos hc1]⟩]
    · by_cases hc2 : c < 0x10000
      · have he : utf8EncodeChar c =
            [0xE0 + c / 0x1000, 0x80 + c / 0x40 % 0x40, 0x80 + c % 0x40] := by
          unfold utf8EncodeChar; rw [if_neg hc0, if_neg hc1, if_pos hc2]
        rw [he]
        show utf8DecodeF (f + 1) ((0xE0 + c / 0x1000) ::
          (0x80 + c / 0x40 % 0x40) :: (0x80 + c % 0x40) :: rest) = _
        rw [utf8DecodeF_cons3 f _ _ (by omega),
          utf8TakeCont_succ 1 _ _ _ (by omega),
          utf8TakeCont_succ 0 _ _ rest (by omega), utf8TakeCont_zero,
          show ((0xE0 + c / 0x1000 - 0xE0) * 0x40 +
              (0x80 + c / 0x40 % 0x40 - 0x80)) * 0x40 +
              (0x80 + c % 0x40 - 0x80) = c from by omega]
        show (if validChar c ∧ (utf8EncodeChar c).length = 3 then
            (utf8DecodeF f rest).map (c :: ·) else none) = _
        rw [if_pos ⟨⟨h1, h2⟩,
          by rw [utf8EncodeChar_length, if_neg hc0, if_neg hc1, if_pos hc2]⟩]
      · have he : utf8EncodeChar c =
            [0xF0 + c / 0x40000, 0x80 + c / 0x1000 % 0x40,
             0x80 + c / 0x40 % 0x40, 0x80 + c % 0x40] := by
          unfold utf8EncodeChar; rw [if_neg hc0, if_neg hc1, if_neg hc2]
        rw [he]
        show utf8DecodeF (f + 1) ((0xF0 + c / 0x40000) ::
          (0x80 + c / 0x1000 % 0x40) :: (0x80 + c / 0x40 % 0x40) ::
          (0x80 + c % 0x40) :: rest) = _
        rw [utf8DecodeF_cons4 f _ _ (by omega),
          utf8TakeCont_succ 2 _ _ _ (by omega),
          utf8TakeCont_succ 1 _ _ _ (by omega),
          utf8TakeCont_succ 0 _ _ rest (by omega), utf8TakeCont_zero,
          show (((0xF0 + c / 0x40000 - 0xF0) * 0x40 +
              (0x80 + c / 0x1000 % 0x40 - 0x80)) * 0x40 +
              (0x80 + c / 0x40 % 0x40 - 0x80)) * 0x40 +
              (0x80 + c % 0x40 - 0x80) = c from by omega]
        show (if validChar c ∧ (utf8EncodeChar c).length = 4 then
            (utf8DecodeF f rest).map (c :: ·) else none) = _
        rw [if_pos ⟨⟨h1, h2⟩,
          by rw [utf8EncodeChar_length, if_neg hc0, if_neg hc1, if_neg hc2]⟩]

theorem utf8DecodeF_utf8Encode {s : List Nat} (h : validString s)
    (fuel : Nat) (hf : s.length ≤ fuel) :
    utf8DecodeF fuel (utf8Encode s) = some s := by
  induction s generalizing fuel with
  | nil => cases fuel <;> rfl
  | cons c cs ih =>
    have hc : validChar c := h c (List.mem_cons_self c cs)
    have hcs : validString cs := fun x hx => h x (List.mem_cons_of_mem c hx)
    cases fuel with
    | zero => simp at hf
    | succ f =>
      show utf8DecodeF (f + 1) (utf8EncodeChar c ++ utf8Encode cs) = _
      rw [utf8DecodeF_encodeChar f c hc, ih hcs f (by simp at hf; omega)]
      rfl

theorem utf8Encode_length_ge {s : List Nat} : s.length ≤ (utf8Encode s).length := by
  induction s with
  | nil => simp [utf8Encode]
  | cons c cs ih =>
    show cs.length + 1 ≤ (utf8EncodeChar c ++ utf8Encode cs).length
    have h1 : 1 ≤ (utf8EncodeChar c).length := by
      cases hc : utf8EncodeChar c with
      | nil => exact absurd hc (utf8EncodeChar_ne_nil c)
      | cons x xs => simp
    simp only [List.length_append]
    omega

/-- UTF-8 round-trip: decoding an encoded text recovers it. -/
theorem utf8Decode_utf8Encode {s : List Nat} (h : validString s) :
    utf8Decode (utf8Encode s) = some s :=
  utf8DecodeF_utf8Encode h (utf8Encode s).length utf8Encode_length_ge

/-! ## Big-endian 4-byte schema ids

`int.from_bytes(bytes[1:5], "big")` (kash.py lines 541, 559, 576) and the
`0x0 :: 4-byte id` header the confluent serializers emit. -/

/-- `int.from_bytes(bs, "big")`. -/
def intFromBytesBig (bs : List Nat) : Nat := bs.foldl (fun acc b => acc * 256 + b) 0

/-- The schema id embedded in a structurally-encoded payload:
`int.from_bytes(bytes[1:5], "big")`. -/
def schemaIdOf (bytes : List Nat) : Nat := intFromBytesBig ((bytes.drop 1).take 4)

/-- 4-byte big-endian representation of a (registry-sized) natural number. -/
def natToBe4 (n : Nat) : List Nat :=
  [n / 0x1000000 % 256, n / 0x10000 % 256, n / 0x100 % 256, n % 256]

theorem schemaIdOf_header (id : Nat) (hid : id < 2 ^ 32) (body : List Nat) :
    schemaIdOf (0 :: natToBe4 id ++ body) = id := by
  simp only [schemaIdOf, natToBe4, intFromBytesBig, List.cons_append,
    List.drop_succ_cons, List.drop_zero, List.take_succ_cons, List.take_zero,
    List.foldl_cons, List.foldl_nil]
  omega

theorem natToBe4_length (n : Nat) : (natToBe4 n).length = 4 := rfl

/-! ## Data model

Python values that can appear as a message key or value.  Texts (`str`) carry
Unicode scalar values, `bytes` carry byte values, `obj` is a structured value
(Python dict) of abstract type `J` (the JSON library and the structural
serializers are external collaborators, so the structured-value type and its
codecs are parameters of the embedding). -/

inductive PyVal (J : Type) where
  | none
  | bytes (bs : List Nat)
  | str (s : List Nat)
  | obj (j : J)
  deriving DecidableEq, Repr

/-- Errors: Python exceptions raised by the source or its collaborators. -/
inductive KashError where
  | schemaFetch (id : Nat)
  | decodeFail
  | encodeFail
  | typeErr
  | unboundLocal
  | userErr (n : Nat)
  | outOfFuel
  deriving DecidableEq, Repr

/-- External collaborators (confluent serializers, JSON library, protoc),
specified only at their interface boundary.  `jdumps`/`jloads` model
`json.dumps`/`json.loads` (texts of Unicode scalar values); `pbCompile`
models the external protobuf compiler producing a loadable descriptor
(represented by an opaque string); the `*Serialize`/`*Deserialize` pairs
model the format-specific body codecs.  Deserializers receive the full
payload (header included), as in the source. -/
structure Externals (J : Type) where
  jdumps : J → List Nat
  jloads : List Nat → Option J
  pbCompile : String → String
  pbSerialize : String → Option J → List Nat
  pbDeserialize : String → List Nat → Option J
  avroSerialize : String → Option J → List Nat
  avroDeserialize : String → List Nat → Option J
  jsSerialize : String → Option J → List Nat
  jsDeserialize : String → List Nat → Option J

/-- The remote schema store (`SchemaRegistryClient.get_schema` and the
`POST subjects/{topic}-{key|value}/versions` of `post_schema`,
kash.py lines 486-496). -/
structure Registry where
  getSchema : Nat → Option String
  register : String → String → Bool → Nat

/-- A raw broker message as returned by `consumer.consume`
(`confluent_kafka.Message`). -/
structure RawMessage where
  headers : Option (List (String × List Nat))
  partition : Int
  offset : Int
  timestamp : Nat × Int
  key : Option (List Nat)
  value : Option (List Nat)
  deriving DecidableEq, Repr

/-- The message dictionary built by `Cluster.message_to_message_dict`
(kash.py line 641). -/
structure MessageDict (J : Type) where
  headers : Option (List (String × List Nat))
  partition : Int
  offset : Int
  timestamp : Nat × Int
  key : PyVal J
  value : PyVal J
  deriving DecidableEq, Repr

/-- The mutable state of a `Cluster` object (kash.py lines 405-414) that the
codec and pipeline core reads and writes.  The three cache fields model
`schema_id_int_generalizedProtocolMessageType_protobuf_schema_str_tuple_dict`
(id to (descriptor, schema text)), `schema_id_int_avro_schema_str_dict` and
`schema_id_int_jsonschema_str_dict` as association lists.
`get_schema_calls` and `protoc_calls` are instrumentation counters (not in
the source) counting calls to the remote store's `get_schema` and runs of
the external protobuf compiler. -/
structure ClusterState where
  subscribed_topic_str : Option String := Option.none
  subscribed_key_type_str : Option String := Option.none
  subscribed_value_type_str : Option String := Option.none
  last_consumed_message_key_schema_str : Option String := Option.none
  last_consumed_message_value_schema_str : Option String := Option.none
  protobuf_cache_dict : List (Nat × (String × String)) := []
  avro_cache_dict : List (Nat × String) := []
  jsonschema_cache_dict : List (Nat × String) := []
  get_schema_calls : Nat := 0
  protoc_calls : Nat := 0
  deriving DecidableEq, Repr

/-! ## Structural decoders (kash.py lines 540-590)

Each reads the schema id from `bytes[1:5]`, resolves the schema through the
per-format cache (fetching from the registry and, for protobuf, compiling,
only on a miss), records the schema text as the last consumed key/value
schema, and deserializes the full payload.  Errors are returned together
with the state reached so far, since Python keeps object mutations that
happened before an exception. -/

/-- The `if key_bool: ... else: ...` recording of the last consumed schema
text (kash.py lines 548-551, 566-569, 583-586). -/
def setLastSchema (key_bool : Bool) (s : String) (st : ClusterState) :
    ClusterState :=
  if key_bool then { st with last_consumed_message_key_schema_str := some s }
  else { st with last_consumed_message_value_schema_str := some s }

/-- `Cluster.bytes_protobuf_to_dict` (kash.py lines 540-556). -/
def bytes_protobuf_to_dict {J : Type} (ext : Externals J) (reg : Registry)
    (bytes : List Nat) (key_bool : Bool) (st : ClusterState) :
    Except KashError J × ClusterState :=
  let schema_id_int := schemaIdOf bytes
  match st.protobuf_cache_dict.lookup schema_id_int with
  | some (gpmt, protobuf_schema_str) =>
    let st1 := setLastSchema key_bool protobuf_schema_str st
    (match ext.pbDeserialize gpmt bytes with
     | some d => .ok d
     | Option.none => .error .decodeFail, st1)
  | Option.none =>
    match reg.getSchema schema_id_int with
    | Option.none => (.error (.schemaFetch schema_id_int), st)
    | some schema_str =>
      let gpmt := ext.pbCompile schema_str
      let st0 := { st with
        protobuf_cache_dict :=
          (schema_id_int, (gpmt, schema_str)) :: st.protobuf_cache_dict,
        get_schema_calls := st.get_schema_calls + 1,
        protoc_calls := st.protoc_calls + 1 }
      let st1 := setLastSchema key_bool schema_str st0
      (match ext.pbDeserialize gpmt bytes with
       | some d => .ok d
       | Option.none => .error .decodeFail, st1)

/-- `Cluster.bytes_avro_to_dict` (kash.py lines 558-573). -/
def bytes_avro_to_dict {J : Type} (ext : Externals J) (reg : Registry)
    (bytes : List Nat) (key_bool : Bool) (st : ClusterState) :
    Except KashError J × ClusterState :=
  let schema_id_int := schemaIdOf bytes
  match st.avro_cache_dict.lookup schema_id_int with
  | some avro_schema_str =>
    let st1 := setLastSchema key_bool avro_schema_str st
    (match ext.avroDeserialize avro_schema_str bytes with
     | some d => .ok d
     | Option.none => .error .decodeFail, st1)
  | Option.none =>
    match reg.getSchema schema_id_int with
    | Option.none => (.error (.schemaFetch schema_id_int), st)
    | some avro_schema_str =>
      let st0 := { st with
        avro_cache_dict := (schema_id_int, avro_schema_str) :: st.avro_cache_dict,
        get_schema_calls := st.get_schema_calls + 1 }
      let st1 := setLastSchema key_bool avro_schema_str st0
      (match ext.avroDeserialize avro_schema_str bytes with
       | some d => .ok d
       | Option.none => .error .decodeFail, st1)

/-- `Cluster.bytes_jsonschema_to_dict` (kash.py lines 575-590). -/
def bytes_jsonschema_to_dict {J : Type} (ext : Externals J) (reg : Registry)
    (bytes : List Nat) (key_bool : Bool) (st : ClusterState) :
    Except KashError J × ClusterState :=
  let schema_id_int := schemaIdOf bytes
  match st.jsonschema_cache_dict.lookup schema_id_int with
  | some jsonschema_str =>
    let st1 := setLastSchema key_bool jsonschema_str st
    (match ext.jsDeserialize jsonschema_str bytes with
     | some d => .ok d
     | Option.none => .error .decodeFail, st1)
  | Option.none =>
    match reg.getSchema schema_id_int with
    | Option.none => (.error (.schemaFetch schema_id_int), st)
    | some jsonschema_str =>
      let st0 := { st with
        jsonschema_cache_dict :=
          (schema_id_int, jsonschema_str) :: st.jsonschema_cache_dict,
        get_schema_calls := st.get_schema_calls + 1 }
      let st1 := setLastSchema key_bool jsonschema_str st0
      (match ext.jsDeserialize jsonschema_str bytes with
       | some d => .ok d
       | Option.none => .error .decodeFail, st1)

/-! ## Message envelope translation (kash.py lines 594-642) -/

/-- `bytes_to_str` (kash.py lines 599-603): `if bytes:` is false both for
`None` and for empty bytes, so both pass through undecoded; non-empty bytes
are decoded as strict UTF-8 (raising on invalid UTF-8). -/
def bytes_to_str {J : Type} (b : Option (List Nat)) :
    Except KashError (PyVal J) :=
  match b with
  | Option.none => .ok .none
  | some [] => .ok (.bytes [])
  | some bs =>
    match utf8Decode bs with
    | some s => .ok (.str s)
    | Option.none => .error .decodeFail

/-- `bytes_to_bytes` (kash.py lines 606-607). -/
def bytes_to_bytes {J : Type} (b : Option (List Nat)) : PyVal J :=
  match b with
  | Option.none => .none
  | some bs => .bytes bs

/-- The decode dispatch of `Cluster.message_to_message_dict`
(kash.py lines 609-639) applied to one payload.  `json.loads` on bytes
first decodes them as UTF-8.  A type tag matching no branch leaves the
decode function undefined in the source (a `NameError` at the call),
modelled as `typeErr`. -/
def decodePayload {J : Type} (ext : Externals J) (reg : Registry)
    (type_str : String) (b : Option (List Nat)) (key_bool : Bool)
    (st : ClusterState) : Except KashError (PyVal J) × ClusterState :=
  if type_str = "str" then (bytes_to_str b, st)
  else if type_str = "bytes" then (.ok (bytes_to_bytes b), st)
  else if type_str = "json" then
    (match b with
     | Option.none => .error .typeErr
     | some bs =>
       match utf8Decode bs with
       | Option.none => .error .decodeFail
       | some s =>
         match ext.jloads s with
         | some j => .ok (.obj j)
         | Option.none => .error .decodeFail, st)
  else if type_str = "pb" ∨ type_str = "protobuf" then
    match b with
    | Option.none => (.error .typeErr, st)
    | some bs =>
      match bytes_protobuf_to_dict ext reg bs key_bool st with
      | (.ok j, st1) => (.ok (.obj j), st1)
      | (.error e, st1) => (.error e, st1)
  else if type_str = "avro" then
    match b with
    | Option.none => (.error .typeErr, st)
    | some bs =>
      match bytes_avro_to_dict ext reg bs key_bool st with
      | (.ok j, st1) => (.ok (.obj j), st1)
      | (.error e, st1) => (.error e, st1)
  else if type_str = "jsonschema" then
    match b with
    | Option.none => (.error .typeErr, st)
    | some bs =>
      match bytes_jsonschema_to_dict ext reg bs key_bool st with
      | (.ok j, st1) => (.ok (.obj j), st1)
      | (.error e, st1) => (.error e, st1)
  else (.error .typeErr, st)

/-- `Cluster.message_to_message_dict` (kash.py lines 594-642): decode the
key, then the value, and assemble the dictionary; headers, partition,
offset and timestamp pass through unmodified. -/
def message_to_message_dict {J : Type} (ext : Externals J) (reg : Registry)
    (message : RawMessage) (key_type value_type : String)
    (st : ClusterState) : Except KashError (MessageDict J) × ClusterState :=
  match decodePayload ext reg key_type message.key true st with
  | (.error e, st1) => (.error e, st1)
  | (.ok k, st1) =>
    match decodePayload ext reg value_type message.value false st1 with
    | (.error e, st2) => (.error e, st2)
    | (.ok v, st2) =>
      (.ok { headers := message.headers, partition := message.partition,
             offset := message.offset, timestamp := message.timestamp,
             key := k, value := v }, st2)

/-! ## Producer side (kash.py lines 890-973) -/

/-- One call to the underlying `producer.produce` (kash.py line 941),
recording both the arguments `Cluster.produce` received and the serialized
wire payloads it handed to the client. -/
structure ProducedRecord (J : Type) where
  topic_str : String
  value : PyVal J
  key : PyVal J
  key_type : String
  value_type : String
  key_schema : Option String
  value_schema : Option String
  partition : Int
  timestamp : Int
  headers : Option (List (String × List Nat))
  wire_key : Option (List Nat)
  wire_value : Option (List Nat)
  deriving DecidableEq, Repr

/-- `payload_to_payload_dict` (kash.py lines 907-912): str or bytes payloads
are parsed with `json.loads` (bytes are UTF-8-decoded first), anything else
passes through (a dict, or `None`). -/
def payload_to_payload_dict {J : Type} (ext : Externals J) (payload : PyVal J) :
    Except KashError (Option J) :=
  match payload with
  | .str s =>
    match ext.jloads s with
    | some j => .ok (some j)
    | Option.none => .error .decodeFail
  | .bytes bs =>
    match utf8Decode bs with
    | Option.none => .error .decodeFail
    | some s =>
      match ext.jloads s with
      | some j => .ok (some j)
      | Option.none => .error .decodeFail
  | .obj j => .ok (some j)
  | .none => .ok Option.none

/-- The `serialize` closure of `Cluster.produce` (kash.py lines 900-936).
For the structural formats the schema is freshly registered
(`post_schema` inside `schema_str_to_generalizedProtocolMessageType` for
protobuf, or the confluent serializer's own registration for avro and
jsonschema) and the emitted payload is the 5-byte header (magic `0x0` plus
the 4-byte big-endian id) followed by the format-specific body.  A missing
schema for a structural format makes registration or serializer
construction raise, modelled as `encodeFail`. -/
def serialize {J : Type} (ext : Externals J) (reg : Registry)
    (topic_str type_str : String) (schema : Option String) (payload : PyVal J)
    (key_bool : Bool) : Except KashError (PyVal J) :=
  if type_str = "json" then
    match payload with
    | .obj j => .ok (.str (ext.jdumps j))
    | p => .ok p
  else if type_str = "pb" ∨ type_str = "protobuf" then
    match schema with
    | Option.none => .error .encodeFail
    | some schema_str =>
      let schema_id_int := reg.register schema_str topic_str key_bool
      match payload_to_payload_dict ext payload with
      | .error e => .error e
      | .ok payload_dict =>
        .ok (.bytes (0 :: natToBe4 schema_id_int ++
          ext.pbSerialize schema_str payload_dict))
  else if type_str = "avro" then
    match schema with
    | Option.none => .error .encodeFail
    | some schema_str =>
      let schema_id_int := reg.register schema_str topic_str key_bool
      match payload_to_payload_dict ext payload with
      | .error e => .error e
      | .ok payload_dict =>
        .ok (.bytes (0 :: natToBe4 schema_id_int ++
          ext.avroSerialize schema_str payload_dict))
  else if type_str = "jsonschema" then
    match schema with
    | Option.none => .error .encodeFail
    | some schema_str =>
      let schema_id_int := reg.register schema_str topic_str key_bool
      match payload_to_payload_dict ext payload with
      | .error e => .error e
      | .ok payload_dict =>
        .ok (.bytes (0 :: natToBe4 schema_id_int ++
          ext.jsSerialize schema_str payload_dict))
  else .ok payload

/-- The wire conversion done by the confluent producer on the value handed
to `producer.produce`: str payloads are UTF-8-encoded, bytes pass through,
`None` stays absent, and a dict raises a type error. -/
def toWire {J : Type} : PyVal J → Except KashError (Option (List Nat))
  | .none => .ok Option.none
  | .bytes bs => .ok (some bs)
  | .str s => .ok (some (utf8Encode s))
  | .obj _ => .error .typeErr

/-- `Cluster.produce` (kash.py lines 890-945): serialize the key, then the
value, and hand both to the producer.  The flush bookkeeping
(`produced_messages_int`, kash.py lines 943-945) has no observable effect
on the properties considered here and is omitted. -/
def produce {J : Type} (ext : Externals J) (reg : Registry)
    (topic_str : String) (value key : PyVal J)
    (key_type value_type : String) (key_schema value_schema : Option String)
    (partition : Int) (timestamp : Int)
    (headers : Option (List (String × List Nat)))
    (sent : List (ProducedRecord J)) :
    Except KashError (List (ProducedRecord J)) :=
  match serialize ext reg topic_str key_type key_schema key true with
  | .error e => .error e
  | .ok k =>
    match serialize ext reg topic_str value_type value_schema value false with
    | .error e => .error e
    | .ok v =>
      match toWire k with
      | .error e => .error e
      | .ok kw =>
        match toWire v with
        | .error e => .error e
        | .ok vw =>
          .ok (sent ++
            [{ topic_str := topic_str
               value := value
               key := key
               key_type := key_type
               value_type := value_type
               key_schema := key_schema
               value_schema := value_schema
               partition := partition
               timestamp := timestamp
               headers := headers
               wire_key := kw
               wire_value := vw }])

/-- Encode a value for a topic and decode the wire bytes back with the same
type tag: the composition of the producing path (`Cluster.produce`
serialization plus the producer's wire conversion) with the consuming path
(`Cluster.message_to_message_dict` decode dispatch). -/
def encodeThenDecode {J : Type} (ext : Externals J) (reg : Registry)
    (topic_str type_str : String) (schema : Option String) (v : PyVal J)
    (key_bool : Bool) (st : ClusterState) :
    Except KashError (PyVal J) × ClusterState :=
  match serialize ext reg topic_str type_str schema v key_bool with
  | .error e => (.error e, st)
  | .ok p =>
    match toWire p with
    | .error e => (.error e, st)
    | .ok wire => decodePayload ext reg type_str wire key_bool st

/-! ## Consumer side (kash.py lines 977-1028) -/

/-- The state fields `Cluster.subscribe` sets (kash.py lines 1006-1008).
The consumer construction and the assignment callback are modelled
separately (`on_assign` below). -/
def subscribe (topic_str key_type value_type : String) (st : ClusterState) :
    ClusterState :=
  { st with subscribed_topic_str := some topic_str,
            subscribed_key_type_str := some key_type,
            subscribed_value_type_str := some value_type }

/-- `Cluster.unsubscribe` (kash.py lines 1010-1014). -/
def unsubscribe (st : ClusterState) : ClusterState :=
  { st with subscribed_topic_str := Option.none,
            subscribed_key_type_str := Option.none,
            subscribed_value_type_str := Option.none }

/-- Decode a consumed batch in order (the list comprehension of kash.py
line 1026), threading the cluster state; an exception propagates but the
mutations decoding already made are kept. -/
def consumeDecode {J : Type} (ext : Externals J) (reg : Registry)
    (raws : List RawMessage) (key_type value_type : String)
    (st : ClusterState) :
    Except KashError (List (MessageDict J)) × ClusterState :=
  match raws with
  | [] => (.ok [], st)
  | m :: ms =>
    match message_to_message_dict ext reg m key_type value_type st with
    | (.error e, st1) => (.error e, st1)
    | (.ok md, st1) =>
      match consumeDecode ext reg ms key_type value_type st1 with
      | (.error e, st2) => (.error e, st2)
      | (.ok mds, st2) => (.ok (md :: mds), st2)

/-- The outcome of one `Cluster.consume` call: the returned value (`none`
models Python's `None` return, distinct from an empty list), the cluster
state, the undelivered remainder of the message stream, and the lines
printed to standard output. -/
structure ConsumeResult (J : Type) where
  result : Except KashError (Option (List (MessageDict J)))
  cl : ClusterState
  pending : List RawMessage
  output : List String
  deriving Repr

/-- `Cluster.consume` (kash.py lines 1016-1028).  `pending` is the stream of
messages the broker will deliver in order; one call pulls up to `n` of them
(the timeout bounds the wait, so fewer arrive when fewer are pending) and
decodes them with the subscribed key and value types. -/
def consume {J : Type} (ext : Externals J) (reg : Registry) (n : Nat)
    (st : ClusterState) (pending : List RawMessage) : ConsumeResult J :=
  match st.subscribed_topic_str with
  | Option.none =>
    { result := .ok Option.none, cl := st, pending := pending,
      output := ["Please subscribe before you consume."] }
  | some _ =>
    let raw := pending.take n
    let rest := pending.drop n
    match consumeDecode ext reg raw (st.subscribed_key_type_str.getD "")
        (st.subscribed_value_type_str.getD "") st with
    | (.error e, st1) =>
      { result := .error e, cl := st1, pending := rest, output := [] }
    | (.ok mds, st1) =>
      { result := .ok (some mds), cl := st1, pending := rest, output := [] }

/-! ## replicate (kash.py lines 345-383) -/

/-- The state of one `replicate` run: the source cluster state, the source
message stream, the records produced to the target cluster so far, the
function-local `timestamp_int` (which Python leaves unbound until first
assigned, kash.py lines 367-372), and `message_counter_int`. -/
structure ReplicateState (J : Type) where
  src : ClusterState
  pending : List RawMessage
  produced : List (ProducedRecord J)
  timestamp_int : Option Int
  message_counter_int : Nat
  deriving Repr

/-- The body of `replicate`'s `for message_dict in message_dict_list` loop
(kash.py lines 363-373): transform, choose the timestamp (only a
create-time timestamp assigns `timestamp_int` when `keep_timestamps` is
set; otherwise the previous value is reused, or an unbound-local error is
raised if there is none), and produce to the target with the source
cluster's last consumed key and value schema strings. -/
def processBatch {J : Type} (ext : Externals J) (reg : Registry)
    (target_topic_str : String)
    (transform : Option (MessageDict J → Except KashError (MessageDict J)))
    (key_type value_type : String) (keep_timestamps : Bool) :
    List (MessageDict J) → ReplicateState J →
    Except KashError Unit × ReplicateState J
  | [], st => (.ok (), st)
  | md :: rest, st =>
    let tr : Except KashError (MessageDict J) :=
      match transform with
      | Option.none => .ok md
      | some f => f md
    match tr with
    | .error e => (.error e, st)
    | .ok md1 =>
      let ts : Option Int :=
        if keep_timestamps then
          (if md1.timestamp.1 = TIMESTAMP_CREATE_TIME then some md1.timestamp.2
           else st.timestamp_int)
        else some 0
      match ts with
      | Option.none => (.error .unboundLocal, st)
      | some t =>
        match produce ext reg target_topic_str md1.value md1.key key_type
            value_type st.src.last_consumed_message_key_schema_str
            st.src.last_consumed_message_value_schema_str md1.partition t
            md1.headers st.produced with
        | .error e => (.error e, { st with timestamp_int := ts })
        | .ok produced1 =>
          processBatch ext reg target_topic_str transform key_type value_type
            keep_timestamps rest
            { st with timestamp_int := ts, produced := produced1 }

/-- The `while True` loop of `replicate` (kash.py lines 359-380): consume a
batch, stop on an empty (or `None`) batch, process it, count it, and stop
once a finite message budget is reached.  Fuel decreases once per
iteration; every iteration that recurses consumed at least one pending
message, so `pending.length + 1` fuel always suffices. -/
def replicateLoop {J : Type} (ext : Externals J) (reg : Registry)
    (target_topic_str : String)
    (transform : Option (MessageDict J → Except KashError (MessageDict J)))
    (key_type value_type : String) (keep_timestamps : Bool)
    (n : Int) (batch_size : Nat) :
    Nat → ReplicateState J → Except KashError Unit × ReplicateState J
  | 0, st => (.error .outOfFuel, st)
  | fuel + 1, st =>
    let cr : ConsumeResult J := consume ext reg batch_size st.src st.pending
    match cr.result with
    | .error e => (.error e, { st with src := cr.cl, pending := cr.pending })
    | .ok Option.none =>
      (.ok (), { st with src := cr.cl, pending := cr.pending })
    | .ok (some []) =>
      (.ok (), { st with src := cr.cl, pending := cr.pending })
    | .ok (some (md :: mds)) =>
      let st1 := { st with src := cr.cl, pending := cr.pending }
      match processBatch ext reg target_topic_str transform key_type
          value_type keep_timestamps (md :: mds) st1 with
      | (.error e, st2) => (.error e, st2)
      | (.ok (), st2) =>
        let st3 := { st2 with message_counter_int :=
          st2.message_counter_int + (md :: mds).length }
        if n ≠ ALL_MESSAGES ∧ n ≤ (st3.message_counter_int : Int) then
          (.ok (), st3)
        else
          replicateLoop ext reg target_topic_str transform key_type value_type
            keep_timestamps n batch_size fuel st3

/-- `replicate` (kash.py lines 345-383): subscribe the source, run the
consume loop, flush the target (no observable state here) and unsubscribe
the source.  On an error the exception propagates and the states reached
so far are kept. -/
def replicate {J : Type} (ext : Externals J) (reg : Registry)
    (source_topic_str target_topic_str : String)
    (transform : Option (MessageDict J → Except KashError (MessageDict J)))
    (key_type value_type : String) (keep_timestamps : Bool)
    (n : Int) (batch_size : Nat) (src0 : ClusterState)
    (pending0 : List RawMessage) :
    Except KashError Unit × ReplicateState J :=
  let st0 : ReplicateState J :=
    { src := subscribe source_topic_str key_type value_type src0,
      pending := pending0, produced := [], timestamp_int := Option.none,
      message_counter_int := 0 }
  match replicateLoop ext reg target_topic_str transform key_type value_type
      keep_timestamps n batch_size (pending0.length + 1) st0 with
  | (.error e, st) => (.error e, st)
  | (.ok (), st) => (.ok (), { st with src := unsubscribe st.src })

/-! ## fold (kash.py lines 1039-1064) -/

/-- The state of one `Cluster.fold` run. -/
structure FoldState (J A : Type) where
  cl : ClusterState
  pending : List RawMessage
  acc_list : List A
  message_counter_int : Nat
  deriving Repr

/-- The batch accumulation of `fold` (kash.py lines 1054-1055):
`acc_list1` collects `fold_function` results over the batch; a raised
exception discards the partial batch accumulator. -/
def foldBatch {J A : Type}
    (fold_function : MessageDict J → Except KashError (List A)) :
    List (MessageDict J) → Except KashError (List A)
  | [] => .ok []
  | md :: mds =>
    match fold_function md with
    | .error e => .error e
    | .ok xs =>
      match foldBatch fold_function mds with
      | .error e => .error e
      | .ok ys => .ok (xs ++ ys)

/-- The `while True` loop of `Cluster.fold` (kash.py lines 1050-1062). -/
def foldLoop {J A : Type} (ext : Externals J) (reg : Registry)
    (fold_function : MessageDict J → Except KashError (List A))
    (n : Int) (batch_size : Nat) :
    Nat → FoldState J A → Except KashError Unit × FoldState J A
  | 0, st => (.error .outOfFuel, st)
  | fuel + 1, st =>
    let cr : ConsumeResult J := consume ext reg batch_size st.cl st.pending
    match cr.result with
    | .error e => (.error e, { st with cl := cr.cl, pending := cr.pending })
    | .ok Option.none =>
      (.ok (), { st with cl := cr.cl, pending := cr.pending })
    | .ok (some []) =>
      (.ok (), { st with cl := cr.cl, pending := cr.pending })
    | .ok (some (md :: mds)) =>
      let st1 := { st with cl := cr.cl, pending := cr.pending }
      match foldBatch fold_function (md :: mds) with
      | .error e => (.error e, st1)
      | .ok acc_list1 =>
        let st2 := { st1 with
          acc_list := st1.acc_list ++ acc_list1
          message_counter_int := st1.message_counter_int + (md :: mds).length }
        if n ≠ ALL_MESSAGES ∧ n ≤ (st2.message_counter_int : Int) then
          (.ok (), st2)
        else foldLoop ext reg fold_function n batch_size fuel st2

/-- `Cluster.fold` (kash.py lines 1039-1064). -/
def fold {J A : Type} (ext : Externals J) (reg : Registry) (topic_str : String)
    (fold_function : MessageDict J → Except KashError (List A))
    (key_type value_type : String) (n : Int) (batch_size : Nat)
    (cl0 : ClusterState) (pending0 : List RawMessage) :
    Except KashError (List A) × FoldState J A :=
  let st0 : FoldState J A :=
    { cl := subscribe topic_str key_type value_type cl0, pending := pending0,
      acc_list := [], message_counter_int := 0 }
  match foldLoop ext reg fold_function n batch_size (pending0.length + 1)
      st0 with
  | (.error e, st) => (.error e, st)
  | (.ok (), st) => (.ok st.acc_list, { st with cl := unsubscribe st.cl })

/-! ## download (kash.py lines 1102-1145) -/

/-- Python `f"{x}"` applied to a decoded key or value after `json.dumps`
has been applied to dicts (kash.py lines 1124-1133).  The bytes case
abbreviates Python's `repr` quoting (escape sequences are not modelled);
`None` formats as the text `None`. -/
def pyFormat {J : Type} (ext : Externals J) (v : PyVal J) : List Nat :=
  match v with
  | .obj j => ext.jdumps j
  | .str s => s
  | .bytes bs => [98, 39] ++ bs ++ [39]
  | .none => [78, 111, 110, 101]

/-- The lines `download` builds for one batch (kash.py lines 1122-1137):
each record becomes `value` or `key<sep>value` followed by the message
separator, appended with `writelines`. -/
def downloadBatchLines {J : Type} (ext : Externals J)
    (key_value_separator : Option (List Nat)) (message_separator : List Nat)
    (mds : List (MessageDict J)) : List (List Nat) :=
  mds.map (fun md =>
    let value := pyFormat ext md.value
    let output := match key_value_separator with
      | Option.none => value
      | some sep => pyFormat ext md.key ++ sep ++ value
    output ++ message_separator)

/-- The state of one `Cluster.download` run; `lines` is the content of the
output file. -/
structure DownloadState (J : Type) where
  cl : ClusterState
  pending : List RawMessage
  lines : List (List Nat)
  message_counter_int : Nat
  deriving Repr

/-- The `while True` loop of `Cluster.download` (kash.py lines 1118-1144). -/
def downloadLoop {J : Type} (ext : Externals J) (reg : Registry)
    (key_value_separator : Option (List Nat)) (message_separator : List Nat)
    (n : Int) (batch_size : Nat) :
    Nat → DownloadState J → Except KashError Unit × DownloadState J
  | 0, st => (.error .outOfFuel, st)
  | fuel + 1, st =>
    let cr : ConsumeResult J := consume ext reg batch_size st.cl st.pending
    match cr.result with
    | .error e => (.error e, { st with cl := cr.cl, pending := cr.pending })
    | .ok Option.none =>
      (.ok (), { st with cl := cr.cl, pending := cr.pending })
    | .ok (some []) =>
      (.ok (), { st with cl := cr.cl, pending := cr.pending })
    | .ok (some (md :: mds)) =>
      let st1 : DownloadState J := { st with cl := cr.cl, pending := cr.pending }
      let st2 : DownloadState J := { st1 with
        lines := st1.lines ++
          downloadBatchLines ext key_value_separator message_separator
            (md :: mds)
        message_counter_int := st1.message_counter_int + (md :: mds).length }
      if n ≠ ALL_MESSAGES ∧ n ≤ (st2.message_counter_int : Int) then
        (.ok (), st2)
      else
        downloadLoop ext reg key_value_separator message_separator n
          batch_size fuel st2

/-- `Cluster.download` (kash.py lines 1102-1145): subscribe, open the file
(truncating it when `overwrite`), run the loop, unsubscribe. -/
def download {J : Type} (ext : Externals J) (reg : Registry)
    (topic_str : String) (file0 : List (List Nat))
    (key_type value_type : String)
    (key_value_separator : Option (List Nat)) (message_separator : List Nat)
    (overwrite : Bool) (n : Int) (batch_size : Nat) (cl0 : ClusterState)
    (pending0 : List RawMessage) :
    Except KashError Unit × DownloadState J :=
  let st0 : DownloadState J :=
    { cl := subscribe topic_str key_type value_type cl0, pending := pending0,
      lines := if overwrite then [] else file0, message_counter_int := 0 }
  match downloadLoop ext reg key_value_separator message_separator n
      batch_size (pending0.length + 1) st0 with
  | (.error e, st) => (.error e, st)
  | (.ok (), st) => (.ok (), { st with cl := unsubscribe st.cl })

/-! ## Subscription offsets (kash.py lines 994-1005) -/

/-- A `confluent_kafka.TopicPartition` as used by the assignment callback. -/
structure TopicPartition where
  topic : String
  partition : Nat
  offset : Int
  deriving DecidableEq, Repr

/-- `topicPartition_list[index_int].offset = offset_int`: overwrite the
offset of the element at a list index (out-of-range indices raise in
Python and are modelled as changing nothing; the theorems keep them in
range). -/
def setOffsetAt : List TopicPartition → Nat → Int → List TopicPartition
  | [], _, _ => []
  | tp :: tps, 0, off => { tp with offset := off } :: tps
  | tp :: tps, i + 1, off => tp :: setOffsetAt tps i off

/-- The `on_assign` callback of `Cluster.subscribe` (kash.py lines
998-1004): when an offsets dict was supplied, override the offset at each
list index it names and assign the resulting list; otherwise leave the
broker's assignment untouched. -/
def on_assign (offsets_dict : Option (List (Nat × Int)))
    (partitions : List TopicPartition) : List TopicPartition :=
  match offsets_dict with
  | Option.none => partitions
  | some od => od.foldl (fun ps p => setOffsetAt ps p.1 p.2) partitions

/-- Modelled from the spec: the broker's default partition assignment
(external log client, spec sections 4.4 and 6) hands the callback one
partition object per partition of the subscribed topic, in partition
order, with offset `OFFSET_INVALID` (meaning committed offset /
`auto.offset.reset` applies). -/
def defaultAssignment (topic_str : String) (num_partitions : Nat) :
    List TopicPartition :=
  (List.range num_partitions).map
    (fun i => { topic := topic_str, partition := i, offset := OFFSET_INVALID })

/-- Modelled from the spec: the external log client's `consume` (spec
section 6) resolves each assigned partition's start offset (an explicit
assigned offset, or the earliest retained offset 0 under this cluster's
default `auto.offset.reset = earliest`, kash.py line 421), delivers the
messages at or after it in offset order, and returns up to `n` messages. -/
def brokerRead (partition_messages : List (List RawMessage))
    (tps : List TopicPartition) (n : Nat) : List RawMessage :=
  ((tps.map (fun tp =>
      (partition_messages.getD tp.partition []).filter
        (fun m => (if tp.offset = OFFSET_INVALID then 0 else tp.offset) ≤
          m.offset))).flatten).take n

/-! ## Concrete instances used to evaluate the embedding -/

/-- A schema store with no schemas. -/
def noStore : Registry :=
  { getSchema := fun _ => Option.none, register := fun _ _ _ => 0 }

/-- A schema store holding one schema, with text "s" and id 1. -/
def oneStore : Registry :=
  { getSchema := fun i => if i = 1 then some "s" else Option.none,
    register := fun _ _ _ => 1 }

/-- A trivial instantiation of the external collaborators over `Unit`
structured values, used to evaluate the embedding at concrete inputs. -/
def extU : Externals Unit :=
  { jdumps := fun _ => [48]
    jloads := fun _ => some ()
    pbCompile := id
    pbSerialize := fun _ _ => []
    pbDeserialize := fun _ _ => some ()
    avroSerialize := fun _ _ => []
    avroDeserialize := fun _ _ => some ()
    jsSerialize := fun _ _ => []
    jsDeserialize := fun _ _ => some () }

/-- A raw broker message at a given offset of partition 0, used in concrete
runs. -/
def offsetMsg (o : Int) : RawMessage :=
  { headers := Option.none, partition := 0, offset := o,
    timestamp := (TIMESTAMP_CREATE_TIME, 100 + o), key := Option.none,
    value := some [65] }

/-! ## C5: the 5-byte structural header -/

/-- C5: for every structurally-encoded payload, the schema id recovered by
the decoders (protobuf, avro, jsonschema) is the 4-byte big-endian integer
at byte positions 1 through 4, skipping the 1-byte magic marker at
position 0: `schemaIdOf` returns exactly that value independently of the
magic byte and the body, and with an empty per-format cache and an empty
store each decoder reports a fetch of exactly that id. -/
theorem C5_schema_id_header (J : Type) (ext : Externals J)
    (m b1 b2 b3 b4 : Nat) (rest : List Nat) (key_bool : Bool) :
    schemaIdOf (m :: b1 :: b2 :: b3 :: b4 :: rest) =
      ((b1 * 256 + b2) * 256 + b3) * 256 + b4 ∧
    bytes_protobuf_to_dict ext noStore (m :: b1 :: b2 :: b3 :: b4 :: rest)
        key_bool {} =
      (.error (.schemaFetch (((b1 * 256 + b2) * 256 + b3) * 256 + b4)), {}) ∧
    bytes_avro_to_dict ext noStore (m :: b1 :: b2 :: b3 :: b4 :: rest)
        key_bool {} =
      (.error (.schemaFetch (((b1 * 256 + b2) * 256 + b3) * 256 + b4)), {}) ∧
    bytes_jsonschema_to_dict ext noStore (m :: b1 :: b2 :: b3 :: b4 :: rest)
        key_bool {} =
      (.error (.schemaFetch (((b1 * 256 + b2) * 256 + b3) * 256 + b4)), {}) := by
  have hid : schemaIdOf (m :: b1 :: b2 :: b3 :: b4 :: rest) =
      ((b1 * 256 + b2) * 256 + b3) * 256 + b4 := by
    simp only [schemaIdOf, intFromBytesBig, List.drop_succ_cons,
      List.drop_zero, List.take_succ_cons, List.take_zero, List.foldl_cons,
      List.foldl_nil]
    ring
  refine ⟨hid, ?_, ?_, ?_⟩
  · simp only [bytes_protobuf_to_dict, hid, noStore, List.lookup_nil]
  · simp only [bytes_avro_to_dict, hid, noStore, List.lookup_nil]
  · simp only [bytes_jsonschema_to_dict, hid, noStore, List.lookup_nil]

/-! ## C10: consume without a subscription -/

/-- C10: calling `consume` while no topic is subscribed never raises: it
prints the prompt and returns `None` (not an empty list, not an error),
leaving the cluster state and the pending stream untouched. -/
theorem C10_consume_unsubscribed (J : Type) (ext : Externals J)
    (reg : Registry) (n : Nat) (st : ClusterState)
    (pending : List RawMessage) (h : st.subscribed_topic_str = Option.none) :
    consume ext reg n st pending =
      { result := .ok Option.none, cl := st, pending := pending,
        output := ["Please subscribe before you consume."] } := by
  unfold consume
  rw [h]

theorem C10_witness :
    consume extU noStore 1 {} [offsetMsg 0] =
      { result := .ok Option.none, cl := {}, pending := [offsetMsg 0],
        output := ["Please subscribe before you consume."] } :=
  C10_consume_unsubscribed Unit extU noStore 1 {} [offsetMsg 0] rfl

/-- Decoding the UTF-8 encoding of a non-empty text with `bytes_to_str`
recovers exactly that text. -/
theorem bytes_to_str_utf8 (J : Type) (s : List Nat) (hs : validString s)
    (hne : s ≠ []) :
    bytes_to_str (J := J) (some (utf8Encode s)) = .ok (.str s) := by
  cases henc : utf8Encode s with
  | nil => exact absurd henc (utf8Encode_ne_nil hne)
  | cons b bs =>
    show bytes_to_str (some (b :: bs)) = .ok (.str s)
    have hdec : utf8Decode (b :: bs) = some s := by
      rw [← henc]; exact utf8Decode_utf8Encode hs
    show (match utf8Decode (b :: bs) with
      | some t => (.ok (.str t) : Except KashError (PyVal J))
      | Option.none => .error .decodeFail) = .ok (.str s)
    rw [hdec]

/-! ## C9: decoding with type "str" -/

/-- C9 counterexample: empty bytes are present (not `None`), yet
`bytes_to_str` passes them through as a bytes value rather than decoding
them to the empty text, because Python's `if bytes:` is false for `b""`
(kash.py line 600). -/
theorem C9_counterexample :
    bytes_to_str (J := Unit) (some []) = .ok (.bytes []) ∧
      (PyVal.bytes [] : PyVal Unit) ≠ .str [] := ⟨rfl, by decide⟩

/-- C9 (amended): for key or value type "str", decoding absent bytes
(`None`) yields an absent value rather than an error, decoding empty bytes
passes them through unchanged as empty bytes (not as the empty text), and
decoding the UTF-8 encoding of any non-empty text yields exactly that
text. -/
theorem C9_amended_str_decode (J : Type) (s : List Nat) (hs : validString s)
    (hne : s ≠ []) :
    bytes_to_str (J := J) Option.none = .ok .none ∧
    bytes_to_str (J := J) (some []) = .ok (.bytes []) ∧
    bytes_to_str (J := J) (some (utf8Encode s)) = .ok (.str s) :=
  ⟨rfl, rfl, bytes_to_str_utf8 J s hs hne⟩

theorem C9_witness :
    bytes_to_str (J := Unit) (some (utf8Encode [104])) = .ok (.str [104]) :=
  (C9_amended_str_decode Unit [104] (by decide) (by decide)).2.2

/-! ## C8: explicit per-partition start offsets -/

theorem setOffsetAt_getElem (ps : List TopicPartition) (i : Nat) (off : Int)
    (j : Nat) :
    (setOffsetAt ps i off)[j]? =
      if j = i then (ps[j]?).map (fun tp => { tp with offset := off })
      else ps[j]? := by
  induction ps generalizing i j with
  | nil => simp [setOffsetAt]
  | cons tp tps ih =>
    cases i with
    | zero =>
      cases j with
      | zero => simp [setOffsetAt]
      | succ j1 => simp [setOffsetAt]
    | succ i1 =>
      cases j with
      | zero => simp [setOffsetAt]
      | succ j1 => simpa [setOffsetAt] using ih i1 j1

theorem setOffsetAt_length (ps : List TopicPartition) (i : Nat) (off : Int) :
    (setOffsetAt ps i off).length = ps.length := by
  induction ps generalizing i with
  | nil => rfl
  | cons tp tps ih =>
    cases i with
    | zero => rfl
    | succ i1 => simpa [setOffsetAt] using ih i1

theorem lookup_eq_none_of_not_mem {β : Type} (j : Nat) (l : List (Nat × β))
    (h : j ∉ l.map Prod.fst) : l.lookup j = Option.none := by
  induction l with
  | nil => rfl
  | cons p l ih =>
    simp only [List.map_cons, List.mem_cons, not_or] at h
    obtain ⟨k, v⟩ := p
    show (match j == k with
      | true => some v
      | false => List.lookup j l) = Option.none
    rw [beq_eq_false_iff_ne.mpr h.1]
    exact ih h.2

theorem on_assign_foldl_getElem (od : List (Nat × Int))
    (hnd : (od.map Prod.fst).Nodup) (ps : List TopicPartition) (j : Nat) :
    (od.foldl (fun ps p => setOffsetAt ps p.1 p.2) ps)[j]? =
      match od.lookup j with
      | some off => (ps[j]?).map (fun tp => { tp with offset := off })
      | Option.none => ps[j]? := by
  induction od generalizing ps with
  | nil => simp [List.lookup]
  | cons p od1 ih =>
    obtain ⟨i, off⟩ := p
    simp only [List.map_cons, List.nodup_cons] at hnd
    simp only [List.foldl_cons]
    rw [ih hnd.2]
    by_cases hji : j = i
    · subst hji
      have hl : od1.lookup j = Option.none :=
        lookup_eq_none_of_not_mem j od1 hnd.1
      rw [hl]
      show (setOffsetAt ps j off)[j]? =
        match List.lookup j ((j, off) :: od1) with
        | some off => (ps[j]?).map (fun tp => { tp with offset := off })
        | Option.none => ps[j]?
      have hlk : List.lookup j ((j, off) :: od1) = some off := by
        simp [List.lookup]
      rw [hlk, setOffsetAt_getElem, if_pos rfl]
    · have hlk : List.lookup j ((i, off) :: od1) = od1.lookup j := by
        show (match j == i with
          | true => some off
          | false => List.lookup j od1) = od1.lookup j
        rw [beq_eq_false_iff_ne.mpr hji]
      rw [hlk, setOffsetAt_getElem, if_neg hji]

theorem on_assign_foldl_length (od : List (Nat × Int))
    (ps : List TopicPartition) :
    (od.foldl (fun ps p => setOffsetAt ps p.1 p.2) ps).length = ps.length := by
  induction od generalizing ps with
  | nil => rfl
  | cons p od1 ih =>
    simp only [List.foldl_cons]
    rw [ih, setOffsetAt_length]

/-- C8: when `subscribe` is given an explicit per-partition offsets map,
the assignment callback overrides the starting offset only for the
partitions named in the map: the assigned list keeps one entry per
partition of the topic, entries named in the map carry the mapped offset,
all others keep `OFFSET_INVALID` (so the default auto-offset-reset
behavior applies to them); and in the concrete scenario of a
single-partition topic holding 3 messages at offsets 0, 1, 2, subscribing
with offsets `{0: 2}` and consuming once yields exactly the one message at
offset 2. -/
theorem C8_offsets_override (t : String) (od : List (Nat × Int)) (np j : Nat)
    (hnd : (od.map Prod.fst).Nodup) (hj : j < np) :
    ((on_assign (some od) (defaultAssignment t np)).length = np ∧
      (∀ off, od.lookup j = some off →
        (on_assign (some od) (defaultAssignment t np))[j]? =
          some { topic := t, partition := j, offset := off }) ∧
      (od.lookup j = Option.none →
        (on_assign (some od) (defaultAssignment t np))[j]? =
          some { topic := t, partition := j, offset := OFFSET_INVALID })) ∧
    (brokerRead [[offsetMsg 0, offsetMsg 1, offsetMsg 2]]
        (on_assign (some [(0, 2)]) (defaultAssignment "t" 1)) 1 =
          [offsetMsg 2] ∧
      (offsetMsg 2).offset = 2) := by
  have hdef : (defaultAssignment t np)[j]? =
      some { topic := t, partition := j, offset := OFFSET_INVALID } := by
    simp [defaultAssignment, hj]
  refine ⟨⟨?_, ?_, ?_⟩, by decide, rfl⟩
  · show (od.foldl (fun ps p => setOffsetAt ps p.1 p.2)
      (defaultAssignment t np)).length = np
    rw [on_assign_foldl_length]
    simp [defaultAssignment]
  · intro off hoff
    show (od.foldl (fun ps p => setOffsetAt ps p.1 p.2)
      (defaultAssignment t np))[j]? = _
    rw [on_assign_foldl_getElem od hnd _ j, hoff, hdef]
    rfl
  · intro hoff
    show (od.foldl (fun ps p => setOffsetAt ps p.1 p.2)
      (defaultAssignment t np))[j]? = _
    rw [on_assign_foldl_getElem od hnd _ j, hoff, hdef]

theorem C8_witness :
    (on_assign (some [(0, 2)]) (defaultAssignment "t" 1))[0]? =
      some { topic := "t", partition := 0, offset := 2 } :=
  (C8_offsets_override "t" [(0, 2)] 1 0 (by decide) (by decide)).1.2.1 2 rfl

/-! ## C3: the per-format schema cache -/

theorem setLastSchema_frame (kb : Bool) (s : String) (st : ClusterState) :
    (setLastSchema kb s st).avro_cache_dict = st.avro_cache_dict ∧
    (setLastSchema kb s st).protobuf_cache_dict = st.protobuf_cache_dict ∧
    (setLastSchema kb s st).jsonschema_cache_dict = st.jsonschema_cache_dict ∧
    (setLastSchema kb s st).get_schema_calls = st.get_schema_calls ∧
    (setLastSchema kb s st).protoc_calls = st.protoc_calls ∧
    (setLastSchema kb s st).subscribed_topic_str = st.subscribed_topic_str ∧
    (setLastSchema kb s st).subscribed_key_type_str =
      st.subscribed_key_type_str ∧
    (setLastSchema kb s st).subscribed_value_type_str =
      st.subscribed_value_type_str := by
  cases kb <;> simp [setLastSchema]

theorem bytes_avro_to_dict_snd (J : Type) (ext : Externals J) (reg : Registry)
    (b : List Nat) (kb : Bool) (st : ClusterState) :
    (bytes_avro_to_dict ext reg b kb st).2 =
      match st.avro_cache_dict.lookup (schemaIdOf b) with
      | some s => setLastSchema kb s st
      | Option.none =>
        match reg.getSchema (schemaIdOf b) with
        | Option.none => st
        | some s => setLastSchema kb s
            { st with
              avro_cache_dict := (schemaIdOf b, s) :: st.avro_cache_dict
              get_schema_calls := st.get_schema_calls + 1 } := by
  cases hk : st.avro_cache_dict.lookup (schemaIdOf b) with
  | none =>
    cases hg : reg.getSchema (schemaIdOf b) with
    | none => simp [bytes_avro_to_dict, hk, hg]
    | some s => simp [bytes_avro_to_dict, hk, hg]
  | some s => simp [bytes_avro_to_dict, hk]

theorem bytes_protobuf_to_dict_snd (J : Type) (ext : Externals J)
    (reg : Registry) (b : List Nat) (kb : Bool) (st : ClusterState) :
    (bytes_protobuf_to_dict ext reg b kb st).2 =
      match st.protobuf_cache_dict.lookup (schemaIdOf b) with
      | some (_, s) => setLastSchema kb s st
      | Option.none =>
        match reg.getSchema (schemaIdOf b) with
        | Option.none => st
        | some s => setLastSchema kb s
            { st with
              protobuf_cache_dict :=
                (schemaIdOf b, (ext.pbCompile s, s)) :: st.protobuf_cache_dict
              get_schema_calls := st.get_schema_calls + 1
              protoc_calls := st.protoc_calls + 1 } := by
  cases hk : st.protobuf_cache_dict.lookup (schemaIdOf b) with
  | none =>
    cases hg : reg.getSchema (schemaIdOf b) with
    | none => simp [bytes_protobuf_to_dict, hk, hg]
    | some s => simp [bytes_protobuf_to_dict, hk, hg]
  | some p =>
    obtain ⟨gpmt, s⟩ := p
    simp [bytes_protobuf_to_dict, hk]

theorem bytes_jsonschema_to_dict_snd (J : Type) (ext : Externals J)
    (reg : Registry) (b : List Nat) (kb : Bool) (st : ClusterState) :
    (bytes_jsonschema_to_dict ext reg b kb st).2 =
      match st.jsonschema_cache_dict.lookup (schemaIdOf b) with
      | some s => setLastSchema kb s st
      | Option.none =>
        match reg.getSchema (schemaIdOf b) with
        | Option.none => st
        | some s => setLastSchema kb s
            { st with
              jsonschema_cache_dict :=
                (schemaIdOf b, s) :: st.jsonschema_cache_dict
              get_schema_calls := st.get_schema_calls + 1 } := by
  cases hk : st.jsonschema_cache_dict.lookup (schemaIdOf b) with
  | none =>
    cases hg : reg.getSchema (schemaIdOf b) with
    | none => simp [bytes_jsonschema_to_dict, hk, hg]
    | some s => simp [bytes_jsonschema_to_dict, hk, hg]
  | some s => simp [bytes_jsonschema_to_dict, hk]

theorem lookup_cons_self {β : Type} (i : Nat) (v : β) (l : List (Nat × β)) :
    List.lookup i ((i, v) :: l) = some v := by
  show (match i == i with
    | true => some v
    | false => List.lookup i l) = some v
  rw [beq_self_eq_true]

theorem lookup_cons_ne {β : Type} (i k : Nat) (v : β) (l : List (Nat × β))
    (h : i ≠ k) : List.lookup i ((k, v) :: l) = List.lookup i l := by
  show (match i == k with
    | true => some v
    | false => List.lookup i l) = List.lookup i l
  rw [beq_eq_false_iff_ne.mpr h]

theorem bytes_avro_to_dict_ok_cache (J : Type) (ext : Externals J)
    (reg : Registry) (b : List Nat) (kb : Bool) (st st1 : ClusterState)
    (j : J) (h : bytes_avro_to_dict ext reg b kb st = (.ok j, st1)) :
    (st1.avro_cache_dict.lookup (schemaIdOf b)).isSome := by
  have h2 : st1 = (bytes_avro_to_dict ext reg b kb st).2 := by rw [h]
  rw [bytes_avro_to_dict_snd] at h2
  cases hk : st.avro_cache_dict.lookup (schemaIdOf b) with
  | some s =>
    rw [hk] at h2
    rw [h2, (setLastSchema_frame kb s st).1, hk]
    rfl
  | none =>
    cases hg : reg.getSchema (schemaIdOf b) with
    | none => simp [bytes_avro_to_dict, hk, hg] at h
    | some s =>
      rw [hk, hg] at h2
      rw [h2, (setLastSchema_frame kb s _).1, lookup_cons_self]
      rfl

theorem bytes_protobuf_to_dict_ok_cache (J : Type) (ext : Externals J)
    (reg : Registry) (b : List Nat) (kb : Bool) (st st1 : ClusterState)
    (j : J) (h : bytes_protobuf_to_dict ext reg b kb st = (.ok j, st1)) :
    (st1.protobuf_cache_dict.lookup (schemaIdOf b)).isSome := by
  have h2 : st1 = (bytes_protobuf_to_dict ext reg b kb st).2 := by rw [h]
  rw [bytes_protobuf_to_dict_snd] at h2
  cases hk : st.protobuf_cache_dict.lookup (schemaIdOf b) with
  | some p =>
    obtain ⟨gpmt, s⟩ := p
    rw [hk] at h2
    rw [h2, (setLastSchema_frame kb s st).2.1, hk]
    rfl
  | none =>
    cases hg : reg.getSchema (schemaIdOf b) with
    | none => simp [bytes_protobuf_to_dict, hk, hg] at h
    | some s =>
      rw [hk, hg] at h2
      rw [h2, (setLastSchema_frame kb s _).2.1, lookup_cons_self]
      rfl

theorem bytes_jsonschema_to_dict_ok_cache (J : Type) (ext : Externals J)
    (reg : Registry) (b : List Nat) (kb : Bool) (st st1 : ClusterState)
    (j : J) (h : bytes_jsonschema_to_dict ext reg b kb st = (.ok j, st1)) :
    (st1.jsonschema_cache_dict.lookup (schemaIdOf b)).isSome := by
  have h2 : st1 = (bytes_jsonschema_to_dict ext reg b kb st).2 := by rw [h]
  rw [bytes_jsonschema_to_dict_snd] at h2
  cases hk : st.jsonschema_cache_dict.lookup (schemaIdOf b) with
  | some s =>
    rw [hk] at h2
    rw [h2, (setLastSchema_frame kb s st).2.2.1, hk]
    rfl
  | none =>
    cases hg : reg.getSchema (schemaIdOf b) with
    | none => simp [bytes_jsonschema_to_dict, hk, hg] at h
    | some s =>
      rw [hk, hg] at h2
      rw [h2, (setLastSchema_frame kb s _).2.2.1, lookup_cons_self]
      rfl

theorem bytes_avro_to_dict_hit (J : Type) (ext : Externals J) (reg : Registry)
    (b : List Nat) (kb : Bool) (st : ClusterState)
    (h : (st.avro_cache_dict.lookup (schemaIdOf b)).isSome) :
    (bytes_avro_to_dict ext reg b kb st).2.get_schema_calls =
      st.get_schema_calls ∧
    (bytes_avro_to_dict ext reg b kb st).2.protoc_calls = st.protoc_calls ∧
    (bytes_avro_to_dict ext reg b kb st).2.avro_cache_dict =
      st.avro_cache_dict := by
  obtain ⟨s, hs⟩ := Option.isSome_iff_exists.mp h
  rw [bytes_avro_to_dict_snd, hs]
  exact ⟨(setLastSchema_frame kb s st).2.2.2.1,
    (setLastSchema_frame kb s st).2.2.2.2.1, (setLastSchema_frame kb s st).1⟩

theorem bytes_protobuf_to_dict_hit (J : Type) (ext : Externals J)
    (reg : Registry) (b : List Nat) (kb : Bool) (st : ClusterState)
    (h : (st.protobuf_cache_dict.lookup (schemaIdOf b)).isSome) :
    (bytes_protobuf_to_dict ext reg b kb st).2.get_schema_calls =
      st.get_schema_calls ∧
    (bytes_protobuf_to_dict ext reg b kb st).2.protoc_calls =
      st.protoc_calls ∧
    (bytes_protobuf_to_dict ext reg b kb st).2.protobuf_cache_dict =
      st.protobuf_cache_dict := by
  obtain ⟨p, hs⟩ := Option.isSome_iff_exists.mp h
  obtain ⟨gpmt, s⟩ := p
  rw [bytes_protobuf_to_dict_snd, hs]
  exact ⟨(setLastSchema_frame kb s st).2.2.2.1,
    (setLastSchema_frame kb s st).2.2.2.2.1,
    (setLastSchema_frame kb s st).2.1⟩

theorem bytes_jsonschema_to_dict_hit (J : Type) (ext : Externals J)
    (reg : Registry) (b : List Nat) (kb : Bool) (st : ClusterState)
    (h : (st.jsonschema_cache_dict.lookup (schemaIdOf b)).isSome) :
    (bytes_jsonschema_to_dict ext reg b kb st).2.get_schema_calls =
      st.get_schema_calls ∧
    (bytes_jsonschema_to_dict ext reg b kb st).2.protoc_calls =
      st.protoc_calls ∧
    (bytes_jsonschema_to_dict ext reg b kb st).2.jsonschema_cache_dict =
      st.jsonschema_cache_dict := by
  obtain ⟨s, hs⟩ := Option.isSome_iff_exists.mp h
  rw [bytes_jsonschema_to_dict_snd, hs]
  exact ⟨(setLastSchema_frame kb s st).2.2.2.1,
    (setLastSchema_frame kb s st).2.2.2.2.1,
    (setLastSchema_frame kb s st).2.2.1⟩

theorem bytes_avro_to_dict_mono (J : Type) (ext : Externals J)
    (reg : Registry) (b : List Nat) (kb : Bool) (st : ClusterState)
    (i : Nat) (v : String) (hv : st.avro_cache_dict.lookup i = some v) :
    (bytes_avro_to_dict ext reg b kb st).2.avro_cache_dict.lookup i =
      some v := by
  rw [bytes_avro_to_dict_snd]
  cases hk : st.avro_cache_dict.lookup (schemaIdOf b) with
  | some s => rw [(setLastSchema_frame kb s st).1]; exact hv
  | none =>
    cases hg : reg.getSchema (schemaIdOf b) with
    | none => exact hv
    | some s =>
      rw [(setLastSchema_frame kb s _).1]
      have hne : i ≠ schemaIdOf b := by
        intro he
        rw [he, hk] at hv
        exact Option.noConfusion hv
      show List.lookup i ((schemaIdOf b, s) :: st.avro_cache_dict) = some v
      rw [lookup_cons_ne i (schemaIdOf b) s st.avro_cache_dict hne]
      exact hv

theorem bytes_protobuf_to_dict_mono (J : Type) (ext : Externals J)
    (reg : Registry) (b : List Nat) (kb : Bool) (st : ClusterState)
    (i : Nat) (v : String × String)
    (hv : st.protobuf_cache_dict.lookup i = some v) :
    (bytes_protobuf_to_dict ext reg b kb st).2.protobuf_cache_dict.lookup i =
      some v := by
  rw [bytes_protobuf_to_dict_snd]
  cases hk : st.protobuf_cache_dict.lookup (schemaIdOf b) with
  | some p =>
    obtain ⟨gpmt, s⟩ := p
    rw [(setLastSchema_frame kb s st).2.1]
    exact hv
  | none =>
    cases hg : reg.getSchema (schemaIdOf b) with
    | none => exact hv
    | some s =>
      rw [(setLastSchema_frame kb s _).2.1]
      have hne : i ≠ schemaIdOf b := by
        intro he
        rw [he, hk] at hv
        exact Option.noConfusion hv
      show List.lookup i
        ((schemaIdOf b, (ext.pbCompile s, s)) :: st.protobuf_cache_dict) =
          some v
      rw [lookup_cons_ne i (schemaIdOf b) _ st.protobuf_cache_dict hne]
      exact hv

theorem bytes_jsonschema_to_dict_mono (J : Type) (ext : Externals J)
    (reg : Registry) (b : List Nat) (kb : Bool) (st : ClusterState)
    (i : Nat) (v : String)
    (hv : st.jsonschema_cache_dict.lookup i = some v) :
    (bytes_jsonschema_to_dict ext reg b kb st).2.jsonschema_cache_dict.lookup
      i = some v := by
  rw [bytes_jsonschema_to_dict_snd]
  cases hk : st.jsonschema_cache_dict.lookup (schemaIdOf b) with
  | some s => rw [(setLastSchema_frame kb s st).2.2.1]; exact hv
  | none =>
    cases hg : reg.getSchema (schemaIdOf b) with
    | none => exact hv
    | some s =>
      rw [(setLastSchema_frame kb s _).2.2.1]
      have hne : i ≠ schemaIdOf b := by
        intro he
        rw [he, hk] at hv
        exact Option.noConfusion hv
      show List.lookup i
        ((schemaIdOf b, s) :: st.jsonschema_cache_dict) = some v
      rw [lookup_cons_ne i (schemaIdOf b) s st.jsonschema_cache_dict hne]
      exact hv

/-- C3: once a schema id has been resolved by a structural decode
(protobuf, avro or jsonschema), any later decode of a payload carrying the
same schema id performs no further schema-store fetch and no further
compiler invocation, and leaves the per-format cache map untouched; and
every decode preserves all existing cache entries (the cache only grows
and entries are never replaced). -/
theorem C3_schema_cache (J : Type) (ext : Externals J) (reg : Registry)
    (b b2 : List Nat) (kb kb2 : Bool) (st st1 : ClusterState) (j : J)
    (hid : schemaIdOf b2 = schemaIdOf b) :
    (bytes_avro_to_dict ext reg b kb st = (.ok j, st1) →
      (bytes_avro_to_dict ext reg b2 kb2 st1).2.get_schema_calls =
        st1.get_schema_calls ∧
      (bytes_avro_to_dict ext reg b2 kb2 st1).2.protoc_calls =
        st1.protoc_calls ∧
      (bytes_avro_to_dict ext reg b2 kb2 st1).2.avro_cache_dict =
        st1.avro_cache_dict) ∧
    (bytes_protobuf_to_dict ext reg b kb st = (.ok j, st1) →
      (bytes_protobuf_to_dict ext reg b2 kb2 st1).2.get_schema_calls =
        st1.get_schema_calls ∧
      (bytes_protobuf_to_dict ext reg b2 kb2 st1).2.protoc_calls =
        st1.protoc_calls ∧
      (bytes_protobuf_to_dict ext reg b2 kb2 st1).2.protobuf_cache_dict =
        st1.protobuf_cache_dict) ∧
    (bytes_jsonschema_to_dict ext reg b kb st = (.ok j, st1) →
      (bytes_jsonschema_to_dict ext reg b2 kb2 st1).2.get_schema_calls =
        st1.get_schema_calls ∧
      (bytes_jsonschema_to_dict ext reg b2 kb2 st1).2.protoc_calls =
        st1.protoc_calls ∧
      (bytes_jsonschema_to_dict ext reg b2 kb2 st1).2.jsonschema_cache_dict =
        st1.jsonschema_cache_dict) ∧
    (∀ i v, st.avro_cache_dict.lookup i = some v →
      (bytes_avro_to_dict ext reg b kb st).2.avro_cache_dict.lookup i =
        some v) ∧
    (∀ i v, st.protobuf_cache_dict.lookup i = some v →
      (bytes_protobuf_to_dict ext reg b kb st).2.protobuf_cache_dict.lookup
        i = some v) ∧
    (∀ i v, st.jsonschema_cache_dict.lookup i = some v →
      (bytes_jsonschema_to_dict ext reg b kb st).2.jsonschema_cache_dict.lookup
        i = some v) := by
  refine ⟨?_, ?_, ?_, ?_, ?_, ?_⟩
  · intro h
    exact bytes_avro_to_dict_hit J ext reg b2 kb2 st1
      (by rw [hid]; exact bytes_avro_to_dict_ok_cache J ext reg b kb st st1 j h)
  · intro h
    exact bytes_protobuf_to_dict_hit J ext reg b2 kb2 st1
      (by rw [hid]
          exact bytes_protobuf_to_dict_ok_cache J ext reg b kb st st1 j h)
  · intro h
    exact bytes_jsonschema_to_dict_hit J ext reg b2 kb2 st1
      (by rw [hid]
          exact bytes_jsonschema_to_dict_ok_cache J ext reg b kb st st1 j h)
  · exact fun i v hv => bytes_avro_to_dict_mono J ext reg b kb st i v hv
  · exact fun i v hv => bytes_protobuf_to_dict_mono J ext reg b kb st i v hv
  · exact fun i v hv => bytes_jsonschema_to_dict_mono J ext reg b kb st i v hv

/-- The cluster state after a first avro decode of schema id 1 against
`oneStore` from a fresh state: the schema text is cached and one
`get_schema` call has happened. -/
def c3state : ClusterState :=
  { last_consumed_message_key_schema_str := some "s"
    avro_cache_dict := [(1, "s")]
    get_schema_calls := 1 }

theorem C3_witness :
    (bytes_avro_to_dict extU oneStore [0, 0, 0, 0, 1] false
      c3state).2.get_schema_calls = c3state.get_schema_calls :=
  ((C3_schema_cache Unit extU oneStore [0, 0, 0, 0, 1] [0, 0, 0, 0, 1] true
    false {} c3state () rfl).1 (by rfl)).1

/-! ## C7: last-consumed schema propagation -/

theorem produce_ok {J : Type} (ext : Externals J) (reg : Registry)
    (topic_str : String) (value key : PyVal J) (key_type value_type : String)
    (key_schema value_schema : Option String) (partition : Int)
    (timestamp : Int) (headers : Option (List (String × List Nat)))
    (sent sent1 : List (ProducedRecord J))
    (h : produce ext reg topic_str value key key_type value_type key_schema
      value_schema partition timestamp headers sent = .ok sent1) :
    ∃ kw vw, sent1 = sent ++
      [{ topic_str := topic_str
         value := value
         key := key
         key_type := key_type
         value_type := value_type
         key_schema := key_schema
         value_schema := value_schema
         partition := partition
         timestamp := timestamp
         headers := headers
         wire_key := kw
         wire_value := vw }] := by
  unfold produce at h
  split at h
  · exact absurd h (by simp)
  · split at h
    · exact absurd h (by simp)
    · split at h
      · exact absurd h (by simp)
      · split at h
        · exact absurd h (by simp)
        · injection h with h2
          exact ⟨_, _, h2.symm⟩

theorem bytes_avro_to_dict_last_frame (J : Type) (ext : Externals J)
    (reg : Registry) (b : List Nat) (st : ClusterState) :
    ((bytes_avro_to_dict ext reg b true
        st).2.last_consumed_message_value_schema_str =
      st.last_consumed_message_value_schema_str) ∧
    ((bytes_avro_to_dict ext reg b false
        st).2.last_consumed_message_key_schema_str =
      st.last_consumed_message_key_schema_str) := by
  constructor <;>
  · rw [bytes_avro_to_dict_snd]
    cases hk : st.avro_cache_dict.lookup (schemaIdOf b) with
    | some s => simp [setLastSchema]
    | none =>
      cases hg : reg.getSchema (schemaIdOf b) with
      | none => rfl
      | some s => simp [setLastSchema]

theorem bytes_protobuf_to_dict_last_frame (J : Type) (ext : Externals J)
    (reg : Registry) (b : List Nat) (st : ClusterState) :
    ((bytes_protobuf_to_dict ext reg b true
        st).2.last_consumed_message_value_schema_str =
      st.last_consumed_message_value_schema_str) ∧
    ((bytes_protobuf_to_dict ext reg b false
        st).2.last_consumed_message_key_schema_str =
      st.last_consumed_message_key_schema_str) := by
  constructor <;>
  · rw [bytes_protobuf_to_dict_snd]
    cases hk : st.protobuf_cache_dict.lookup (schemaIdOf b) with
    | some p =>
      obtain ⟨gpmt, s⟩ := p
      simp [setLastSchema]
    | none =>
      cases hg : reg.getSchema (schemaIdOf b) with
      | none => rfl
      | some s => simp [setLastSchema]

theorem bytes_jsonschema_to_dict_last_frame (J : Type) (ext : Externals J)
    (reg : Registry) (b : List Nat) (st : ClusterState) :
    ((bytes_jsonschema_to_dict ext reg b true
        st).2.last_consumed_message_value_schema_str =
      st.last_consumed_message_value_schema_str) ∧
    ((bytes_jsonschema_to_dict ext reg b false
        st).2.last_consumed_message_key_schema_str =
      st.last_consumed_message_key_schema_str) := by
  constructor <;>
  · rw [bytes_jsonschema_to_dict_snd]
    cases hk : st.jsonschema_cache_dict.lookup (schemaIdOf b) with
    | some s => simp [setLastSchema]
    | none =>
      cases hg : reg.getSchema (schemaIdOf b) with
      | none => rfl
      | some s => simp [setLastSchema]

theorem bytes_avro_to_dict_ok_last (J : Type) (ext : Externals J)
    (reg : Registry) (b : List Nat) (kb : Bool) (st st1 : ClusterState)
    (j : J) (h : bytes_avro_to_dict ext reg b kb st = (.ok j, st1)) :
    ∃ s, st1.avro_cache_dict.lookup (schemaIdOf b) = some s ∧
      (kb = true → st1.last_consumed_message_key_schema_str = some s) ∧
      (kb = false → st1.last_consumed_message_value_schema_str = some s) := by
  have h2 : st1 = (bytes_avro_to_dict ext reg b kb st).2 := by rw [h]
  rw [bytes_avro_to_dict_snd] at h2
  cases hk : st.avro_cache_dict.lookup (schemaIdOf b) with
  | some s =>
    rw [hk] at h2
    refine ⟨s, ?_, ?_, ?_⟩
    · rw [h2, (setLastSchema_frame kb s st).1, hk]
    · intro he; subst he; rw [h2]; simp [setLastSchema]
    · intro he; subst he; rw [h2]; simp [setLastSchema]
  | none =>
    cases hg : reg.getSchema (schemaIdOf b) with
    | none => simp [bytes_avro_to_dict, hk, hg] at h
    | some s =>
      rw [hk, hg] at h2
      refine ⟨s, ?_, ?_, ?_⟩
      · rw [h2, (setLastSchema_frame kb s _).1, lookup_cons_self]
      · intro he; subst he; rw [h2]; simp [setLastSchema]
      · intro he; subst he; rw [h2]; simp [setLastSchema]

theorem bytes_protobuf_to_dict_ok_last (J : Type) (ext : Externals J)
    (reg : Registry) (b : List Nat) (kb : Bool) (st st1 : ClusterState)
    (j : J) (h : bytes_protobuf_to_dict ext reg b kb st = (.ok j, st1)) :
    ∃ s gpmt,
      st1.protobuf_cache_dict.lookup (schemaIdOf b) = some (gpmt, s) ∧
      (kb = true → st1.last_consumed_message_key_schema_str = some s) ∧
      (kb = false → st1.last_consumed_message_value_schema_str = some s) := by
  have h2 : st1 = (bytes_protobuf_to_dict ext reg b kb st).2 := by rw [h]
  rw [bytes_protobuf_to_dict_snd] at h2
  cases hk : st.protobuf_cache_dict.lookup (schemaIdOf b) with
  | some p =>
    obtain ⟨gpmt, s⟩ := p
    rw [hk] at h2
    refine ⟨s, gpmt, ?_, ?_, ?_⟩
    · rw [h2, (setLastSchema_frame kb s st).2.1, hk]
    · intro he; subst he; rw [h2]; simp [setLastSchema]
    · intro he; subst he; rw [h2]; simp [setLastSchema]
  | none =>
    cases hg : reg.getSchema (schemaIdOf b) with
    | none => simp [bytes_protobuf_to_dict, hk, hg] at h
    | some s =>
      rw [hk, hg] at h2
      refine ⟨s, ext.pbCompile s, ?_, ?_, ?_⟩
      · rw [h2, (setLastSchema_frame kb s _).2.1, lookup_cons_self]
      · intro he; subst he; rw [h2]; simp [setLastSchema]
      · intro he; subst he; rw [h2]; simp [setLastSchema]

theorem bytes_jsonschema_to_dict_ok_last (J : Type) (ext : Externals J)
    (reg : Registry) (b : List Nat) (kb : Bool) (st st1 : ClusterState)
    (j : J) (h : bytes_jsonschema_to_dict ext reg b kb st = (.ok j, st1)) :
    ∃ s, st1.jsonschema_cache_dict.lookup (schemaIdOf b) = some s ∧
      (kb = true → st1.last_consumed_message_key_schema_str = some s) ∧
      (kb = false → st1.last_consumed_message_value_schema_str = some s) := by
  have h2 : st1 = (bytes_jsonschema_to_dict ext reg b kb st).2 := by rw [h]
  rw [bytes_jsonschema_to_dict_snd] at h2
  cases hk : st.jsonschema_cache_dict.lookup (schemaIdOf b) with
  | some s =>
    rw [hk] at h2
    refine ⟨s, ?_, ?_, ?_⟩
    · rw [h2, (setLastSchema_frame kb s st).2.2.1, hk]
    · intro he; subst he; rw [h2]; simp [setLastSchema]
    · intro he; subst he; rw [h2]; simp [setLastSchema]
  | none =>
    cases hg : reg.getSchema (schemaIdOf b) with
    | none => simp [bytes_jsonschema_to_dict, hk, hg] at h
    | some s =>
      rw [hk, hg] at h2
      refine ⟨s, ?_, ?_, ?_⟩
      · rw [h2, (setLastSchema_frame kb s _).2.2.1, lookup_cons_self]
      · intro he; subst he; rw [h2]; simp [setLastSchema]
      · intro he; subst he; rw [h2]; simp [setLastSchema]

theorem processBatch_produced {J : Type} (ext : Externals J) (reg : Registry)
    (target_topic_str : String)
    (transform : Option (MessageDict J → Except KashError (MessageDict J)))
    (key_type value_type : String) (keep_timestamps : Bool)
    (batch : List (MessageDict J)) (rst : ReplicateState J)
    (r : ProducedRecord J)
    (hr : r ∈ (processBatch ext reg target_topic_str transform key_type
      value_type keep_timestamps batch rst).2.produced) :
    r ∈ rst.produced ∨
      (r.key_schema = rst.src.last_consumed_message_key_schema_str ∧
       r.value_schema = rst.src.last_consumed_message_value_schema_str ∧
       r.topic_str = target_topic_str ∧ r.key_type = key_type ∧
       r.value_type = value_type) := by
  induction batch generalizing rst with
  | nil => exact Or.inl hr
  | cons md rest ih =>
    simp only [processBatch] at hr
    split at hr
    · exact Or.inl hr
    · split at hr
      · exact Or.inl hr
      · split at hr
        · exact Or.inl hr
        · next produced1 hpr =>
          rcases ih _ hr with h1 | h2
          · obtain ⟨kw, vw, hsent⟩ := produce_ok ext reg target_topic_str _ _
              key_type value_type _ _ _ _ _ rst.produced produced1 hpr
            rw [hsent] at h1
            rcases List.mem_append.mp h1 with h3 | h3
            · exact Or.inl h3
            · rcases List.mem_singleton.mp h3 with rfl
              exact Or.inr ⟨rfl, rfl, rfl, rfl, rfl⟩
          · exact Or.inr h2

/-- C7: decoding a structural key updates only the session's last-consumed
key schema text (the value-side field is untouched) and decoding a
structural value updates only the value-side field, for all three
structural formats; a successful decode records exactly the schema text
resolved (cached) for the payload's schema id; and every record
`replicate`'s batch processing produces carries exactly the source
cluster's last-observed key and value schema texts as the copy's key and
value schemas. -/
theorem C7_schema_propagation (J : Type) (ext : Externals J) (reg : Registry)
    (b : List Nat) (kb : Bool) (st st1 : ClusterState) (j : J) :
    ((bytes_avro_to_dict ext reg b true
        st).2.last_consumed_message_value_schema_str =
      st.last_consumed_message_value_schema_str) ∧
    ((bytes_avro_to_dict ext reg b false
        st).2.last_consumed_message_key_schema_str =
      st.last_consumed_message_key_schema_str) ∧
    ((bytes_protobuf_to_dict ext reg b true
        st).2.last_consumed_message_value_schema_str =
      st.last_consumed_message_value_schema_str) ∧
    ((bytes_protobuf_to_dict ext reg b false
        st).2.last_consumed_message_key_schema_str =
      st.last_consumed_message_key_schema_str) ∧
    ((bytes_jsonschema_to_dict ext reg b true
        st).2.last_consumed_message_value_schema_str =
      st.last_consumed_message_value_schema_str) ∧
    ((bytes_jsonschema_to_dict ext reg b false
        st).2.last_consumed_message_key_schema_str =
      st.last_consumed_message_key_schema_str) ∧
    (bytes_avro_to_dict ext reg b kb st = (.ok j, st1) →
      ∃ s, st1.avro_cache_dict.lookup (schemaIdOf b) = some s ∧
        (kb = true → st1.last_consumed_message_key_schema_str = some s) ∧
        (kb = false → st1.last_consumed_message_value_schema_str = some s)) ∧
    (bytes_protobuf_to_dict ext reg b kb st = (.ok j, st1) →
      ∃ s gpmt,
        st1.protobuf_cache_dict.lookup (schemaIdOf b) = some (gpmt, s) ∧
        (kb = true → st1.last_consumed_message_key_schema_str = some s) ∧
        (kb = false → st1.last_consumed_message_value_schema_str = some s)) ∧
    (bytes_jsonschema_to_dict ext reg b kb st = (.ok j, st1) →
      ∃ s, st1.jsonschema_cache_dict.lookup (schemaIdOf b) = some s ∧
        (kb = true → st1.last_consumed_message_key_schema_str = some s) ∧
        (kb = false → st1.last_consumed_message_value_schema_str = some s)) ∧
    (∀ (target_topic_str key_type value_type : String)
        (transform : Option (MessageDict J → Except KashError (MessageDict J)))
        (keep_timestamps : Bool) (batch : List (MessageDict J))
        (rst : ReplicateState J) (r : ProducedRecord J),
      r ∈ (processBatch ext reg target_topic_str transform key_type
        value_type keep_timestamps batch rst).2.produced →
      r ∈ rst.produced ∨
        (r.key_schema = rst.src.last_consumed_message_key_schema_str ∧
         r.value_schema = rst.src.last_consumed_message_value_schema_str ∧
         r.topic_str = target_topic_str ∧ r.key_type = key_type ∧
         r.value_type = value_type)) :=
  ⟨(bytes_avro_to_dict_last_frame J ext reg b st).1,
   (bytes_avro_to_dict_last_frame J ext reg b st).2,
   (bytes_protobuf_to_dict_last_frame J ext reg b st).1,
   (bytes_protobuf_to_dict_last_frame J ext reg b st).2,
   (bytes_jsonschema_to_dict_last_frame J ext reg b st).1,
   (bytes_jsonschema_to_dict_last_frame J ext reg b st).2,
   fun h => bytes_avro_to_dict_ok_last J ext reg b kb st st1 j h,
   fun h => bytes_protobuf_to_dict_ok_last J ext reg b kb st st1 j h,
   fun h => bytes_jsonschema_to_dict_ok_last J ext reg b kb st st1 j h,
   fun tt kt vt tr keep batch rst r hr =>
     processBatch_produced ext reg tt tr kt vt keep batch rst r hr⟩

/-- A source cluster state that has last observed schema texts "K" (key)
and "V" (value). -/
def c7state : ReplicateState Unit :=
  { src := { last_consumed_message_key_schema_str := some "K"
             last_consumed_message_value_schema_str := some "V" }
    pending := [], produced := [], timestamp_int := Option.none,
    message_counter_int := 0 }

/-- The one message dictionary used in concrete batch runs. -/
def mdU : MessageDict Unit :=
  { headers := Option.none, partition := 0, offset := 0,
    timestamp := (TIMESTAMP_CREATE_TIME, 100), key := .none,
    value := .bytes [1] }

/-- The record the concrete batch run produces. -/
def c7rec : ProducedRecord Unit :=
  { topic_str := "t", value := .bytes [1], key := .none,
    key_type := "bytes", value_type := "bytes", key_schema := some "K",
    value_schema := some "V", partition := 0, timestamp := 0,
    headers := Option.none, wire_key := Option.none,
    wire_value := some [1] }

theorem C7_witness :
    c7rec ∈ c7state.produced ∨
      (c7rec.key_schema = c7state.src.last_consumed_message_key_schema_str ∧
       c7rec.value_schema =
         c7state.src.last_consumed_message_value_schema_str ∧
       c7rec.topic_str = "t" ∧ c7rec.key_type = "bytes" ∧
       c7rec.value_type = "bytes") :=
  (C7_schema_propagation Unit extU noStore [] true {} {}
      ()).2.2.2.2.2.2.2.2.2 "t" "bytes" "bytes" Option.none false [mdU]
    c7state c7rec (by decide)

/-! ## C6: the encode/decode round-trip law -/

theorem bytes_avro_to_dict_fst_ok (J : Type) (ext : Externals J)
    (reg : Registry) (b : List Nat) (kb : Bool) (st : ClusterState)
    (s : String) (j : J)
    (hsid : reg.getSchema (schemaIdOf b) = some s)
    (hcache : ∀ s2, st.avro_cache_dict.lookup (schemaIdOf b) = some s2 →
      s2 = s)
    (hde : ext.avroDeserialize s b = some j) :
    (bytes_avro_to_dict ext reg b kb st).1 = .ok j := by
  cases hk : st.avro_cache_dict.lookup (schemaIdOf b) with
  | some s2 =>
    have hs2 := hcache s2 hk
    subst hs2
    simp [bytes_avro_to_dict, hk, hde]
  | none => simp [bytes_avro_to_dict, hk, hsid, hde]

theorem bytes_protobuf_to_dict_fst_ok (J : Type) (ext : Externals J)
    (reg : Registry) (b : List Nat) (kb : Bool) (st : ClusterState)
    (s : String) (j : J)
    (hsid : reg.getSchema (schemaIdOf b) = some s)
    (hcache : ∀ gpmt s2,
      st.protobuf_cache_dict.lookup (schemaIdOf b) = some (gpmt, s2) →
      s2 = s ∧ gpmt = ext.pbCompile s)
    (hde : ext.pbDeserialize (ext.pbCompile s) b = some j) :
    (bytes_protobuf_to_dict ext reg b kb st).1 = .ok j := by
  cases hk : st.protobuf_cache_dict.lookup (schemaIdOf b) with
  | some p =>
    obtain ⟨gpmt, s2⟩ := p
    obtain ⟨h1, h2⟩ := hcache gpmt s2 hk
    subst h1
    subst h2
    simp [bytes_protobuf_to_dict, hk, hde]
  | none => simp [bytes_protobuf_to_dict, hk, hsid, hde]

theorem bytes_jsonschema_to_dict_fst_ok (J : Type) (ext : Externals J)
    (reg : Registry) (b : List Nat) (kb : Bool) (st : ClusterState)
    (s : String) (j : J)
    (hsid : reg.getSchema (schemaIdOf b) = some s)
    (hcache : ∀ s2, st.jsonschema_cache_dict.lookup (schemaIdOf b) = some s2 →
      s2 = s)
    (hde : ext.jsDeserialize s b = some j) :
    (bytes_jsonschema_to_dict ext reg b kb st).1 = .ok j := by
  cases hk : st.jsonschema_cache_dict.lookup (schemaIdOf b) with
  | some s2 =>
    have hs2 := hcache s2 hk
    subst hs2
    simp [bytes_jsonschema_to_dict, hk, hde]
  | none => simp [bytes_jsonschema_to_dict, hk, hsid, hde]

/-- The values encodable in each format (spec section 8): byte values or an
absent value for Bytes, a text of Unicode scalar values or an absent value
for String, a structured value (dict) for the JSON and structural
formats. -/
def encodable {J : Type} (type_str : String) (v : PyVal J) : Prop :=
  if type_str = "bytes" then (∃ bs, v = .bytes bs) ∨ v = .none
  else if type_str = "str" then (∃ s, v = .str s ∧ validString s) ∨ v = .none
  else ∃ j, v = .obj j

/-- C6 counterexample: the round-trip law fails as stated.  Under the
String format the empty string encodes to empty wire bytes, and decoding
them yields an empty bytes value rather than the empty string, because
`bytes_to_str` passes falsy `b""` through undecoded. -/
theorem C6_counterexample :
    (encodeThenDecode extU noStore "t" "str" Option.none (.str []) false
      {}).1 = .ok (.bytes []) ∧
    (Except.ok (.bytes []) : Except KashError (PyVal Unit)) ≠
      .ok (.str []) := ⟨rfl, fun h => absurd (Except.ok.inj h) (by decide)⟩

/-- C6 (amended): for every supported format and every value encodable in
it, decoding the encoding of the value yields the value again — byte-exact
for Bytes, text-exact for String, field-value equal for JSON and the
structural formats — except that under the String format the empty string
decodes to an empty bytes value instead of the empty string.  The external
collaborators are assumed to satisfy their interface contracts at the
instance the run uses: the JSON codec is inverse on dumped texts, the
schema store returns the produced schema's text at the id it assigned to
it, the format deserializers invert the format serializers behind the
5-byte header, and cached schema texts agree with the store. -/
theorem C6_amended_roundtrip (J : Type) (ext : Externals J) (reg : Registry)
    (topic_str type_str : String) (schema : Option String) (v : PyVal J)
    (kb : Bool) (st : ClusterState)
    (hF : type_str = "bytes" ∨ type_str = "str" ∨ type_str = "json" ∨
      type_str = "pb" ∨ type_str = "protobuf" ∨ type_str = "avro" ∨
      type_str = "jsonschema")
    (henc : encodable type_str v)
    (hne : ¬(type_str = "str" ∧ v = .str []))
    (hjson : type_str = "json" →
      ∀ j : J, validString (ext.jdumps j) ∧ ext.jloads (ext.jdumps j) = some j)
    (hschema : (type_str = "pb" ∨ type_str = "protobuf" ∨ type_str = "avro" ∨
      type_str = "jsonschema") → ∃ s, schema = some s)
    (hreg : (type_str = "pb" ∨ type_str = "protobuf" ∨ type_str = "avro" ∨
      type_str = "jsonschema") →
      ∀ s, schema = some s →
        reg.getSchema (reg.register s topic_str kb) = some s ∧
        reg.register s topic_str kb < 2 ^ 32)
    (hpb : (type_str = "pb" ∨ type_str = "protobuf") →
      ∀ (s : String) (j : J) (hdr : List Nat), hdr.length = 5 →
        ext.pbDeserialize (ext.pbCompile s) (hdr ++ ext.pbSerialize s (some j))
          = some j)
    (hpbcache : (type_str = "pb" ∨ type_str = "protobuf") →
      ∀ i gpmt s, st.protobuf_cache_dict.lookup i = some (gpmt, s) →
        reg.getSchema i = some s ∧ gpmt = ext.pbCompile s)
    (havro : type_str = "avro" →
      ∀ (s : String) (j : J) (hdr : List Nat), hdr.length = 5 →
        ext.avroDeserialize s (hdr ++ ext.avroSerialize s (some j)) = some j)
    (havrocache : type_str = "avro" →
      ∀ i s, st.avro_cache_dict.lookup i = some s → reg.getSchema i = some s)
    (hjs : type_str = "jsonschema" →
      ∀ (s : String) (j : J) (hdr : List Nat), hdr.length = 5 →
        ext.jsDeserialize s (hdr ++ ext.jsSerialize s (some j)) = some j)
    (hjscache : type_str = "jsonschema" →
      ∀ i s, st.jsonschema_cache_dict.lookup i = some s →
        reg.getSchema i = some s) :
    (encodeThenDecode ext reg topic_str type_str schema v kb st).1 =
      .ok v := by
  rcases hF with h | h | h | h | h | h | h <;> subst h
  · -- "bytes": identity passthrough both directions
    have henc2 : (∃ bs, v = PyVal.bytes bs) ∨ v = PyVal.none := henc
    rcases henc2 with ⟨bs, rfl⟩ | rfl
    · rfl
    · rfl
  · -- "str": UTF-8 encode at the producer, UTF-8 decode in bytes_to_str
    have henc2 : (∃ s, v = PyVal.str s ∧ validString s) ∨ v = PyVal.none :=
      henc
    rcases henc2 with ⟨s, rfl, hs⟩ | rfl
    · have hsne : s ≠ [] := fun he => hne ⟨rfl, by rw [he]⟩
      show bytes_to_str (J := J) (some (utf8Encode s)) = .ok (.str s)
      exact bytes_to_str_utf8 J s hs hsne
    · rfl
  · -- "json": dumps then UTF-8, decoded by loads after UTF-8 decode
    obtain ⟨j, rfl⟩ := (henc : ∃ j, v = PyVal.obj j)
    obtain ⟨hjv, hjl⟩ := hjson rfl j
    have hu : utf8Decode (utf8Encode (ext.jdumps j)) = some (ext.jdumps j) :=
      utf8Decode_utf8Encode hjv
    show (match utf8Decode (utf8Encode (ext.jdumps j)) with
      | Option.none => (.error .decodeFail : Except KashError (PyVal J))
      | some s =>
        match ext.jloads s with
        | some j2 => .ok (.obj j2)
        | Option.none => .error .decodeFail) = .ok (.obj j)
    rw [hu]
    show (match ext.jloads (ext.jdumps j) with
      | some j2 => (.ok (.obj j2) : Except KashError (PyVal J))
      | Option.none => .error .decodeFail) = .ok (.obj j)
    rw [hjl]
  · -- "pb"
    obtain ⟨j, rfl⟩ := (henc : ∃ j, v = PyVal.obj j)
    obtain ⟨s, rfl⟩ := hschema (Or.inl rfl)
    obtain ⟨hget, hlt⟩ := hreg (Or.inl rfl) s rfl
    have hsid : schemaIdOf (0 :: natToBe4 (reg.register s topic_str kb) ++
        ext.pbSerialize s (some j)) = reg.register s topic_str kb :=
      schemaIdOf_header _ hlt _
    have hfst : (bytes_protobuf_to_dict ext reg
        (0 :: natToBe4 (reg.register s topic_str kb) ++
          ext.pbSerialize s (some j)) kb st).1 = .ok j := by
      apply bytes_protobuf_to_dict_fst_ok J ext reg _ kb st s j
      · rw [hsid]
        exact hget
      · intro gpmt s2 hk
        rw [hsid] at hk
        obtain ⟨h2, h3⟩ := hpbcache (Or.inl rfl) _ gpmt s2 hk
        rw [hget] at h2
        have h4 : s2 = s := (Option.some.inj h2).symm
        subst h4
        exact ⟨rfl, h3⟩
      · exact hpb (Or.inl rfl) s j
          (0 :: natToBe4 (reg.register s topic_str kb)) rfl
    cases hres : bytes_protobuf_to_dict ext reg
        (0 :: natToBe4 (reg.register s topic_str kb) ++
          ext.pbSerialize s (some j)) kb st with
    | mk r st1 =>
      rw [hres] at hfst
      have hr : r = .ok j := hfst
      subst hr
      show (match bytes_protobuf_to_dict ext reg
          (0 :: natToBe4 (reg.register s topic_str kb) ++
            ext.pbSerialize s (some j)) kb st with
        | (.ok j2, st2) => ((.ok (.obj j2) : Except KashError (PyVal J)), st2)
        | (.error e, st2) => (.error e, st2)).1 = .ok (.obj j)
      rw [hres]
  · -- "protobuf"
    obtain ⟨j, rfl⟩ := (henc : ∃ j, v = PyVal.obj j)
    obtain ⟨s, rfl⟩ := hschema (Or.inr (Or.inl rfl))
    obtain ⟨hget, hlt⟩ := hreg (Or.inr (Or.inl rfl)) s rfl
    have hsid : schemaIdOf (0 :: natToBe4 (reg.register s topic_str kb) ++
        ext.pbSerialize s (some j)) = reg.register s topic_str kb :=
      schemaIdOf_header _ hlt _
    have hfst : (bytes_protobuf_to_dict ext reg
        (0 :: natToBe4 (reg.register s topic_str kb) ++
          ext.pbSerialize s (some j)) kb st).1 = .ok j := by
      apply bytes_protobuf_to_dict_fst_ok J ext reg _ kb st s j
      · rw [hsid]
        exact hget
      · intro gpmt s2 hk
        rw [hsid] at hk
        obtain ⟨h2, h3⟩ := hpbcache (Or.inr rfl) _ gpmt s2 hk
        rw [hget] at h2
        have h4 : s2 = s := (Option.some.inj h2).symm
        subst h4
        exact ⟨rfl, h3⟩
      · exact hpb (Or.inr rfl) s j
          (0 :: natToBe4 (reg.register s topic_str kb)) rfl
    cases hres : bytes_protobuf_to_dict ext reg
        (0 :: natToBe4 (reg.register s topic_str kb) ++
          ext.pbSerialize s (some j)) kb st with
    | mk r st1 =>
      rw [hres] at hfst
      have hr : r = .ok j := hfst
      subst hr
      show (match bytes_protobuf_to_dict ext reg
          (0 :: natToBe4 (reg.register s topic_str kb) ++
            ext.pbSerialize s (some j)) kb st with
        | (.ok j2, st2) => ((.ok (.obj j2) : Except KashError (PyVal J)), st2)
        | (.error e, st2) => (.error e, st2)).1 = .ok (.obj j)
      rw [hres]
  · -- "avro"
    obtain ⟨j, rfl⟩ := (henc : ∃ j, v = PyVal.obj j)
    obtain ⟨s, rfl⟩ := hschema (Or.inr (Or.inr (Or.inl rfl)))
    obtain ⟨hget, hlt⟩ := hreg (Or.inr (Or.inr (Or.inl rfl))) s rfl
    have hsid : schemaIdOf (0 :: natToBe4 (reg.register s topic_str kb) ++
        ext.avroSerialize s (some j)) = reg.register s topic_str kb :=
      schemaIdOf_header _ hlt _
    have hfst : (bytes_avro_to_dict ext reg
        (0 :: natToBe4 (reg.register s topic_str kb) ++
          ext.avroSerialize s (some j)) kb st).1 = .ok j := by
      apply bytes_avro_to_dict_fst_ok J ext reg _ kb st s j
      · rw [hsid]
        exact hget
      · intro s2 hk
        rw [hsid] at hk
        have h2 := havrocache rfl _ s2 hk
        rw [hget] at h2
        exact (Option.some.inj h2).symm
      · exact havro rfl s j
          (0 :: natToBe4 (reg.register s topic_str kb)) rfl
    cases hres : bytes_avro_to_dict ext reg
        (0 :: natToBe4 (reg.register s topic_str kb) ++
          ext.avroSerialize s (some j)) kb st with
    | mk r st1 =>
      rw [hres] at hfst
      have hr : r = .ok j := hfst
      subst hr
      show (match bytes_avro_to_dict ext reg
          (0 :: natToBe4 (reg.register s topic_str kb) ++
            ext.avroSerialize s (some j)) kb st with
        | (.ok j2, st2) => ((.ok (.obj j2) : Except KashError (PyVal J)), st2)
        | (.error e, st2) => (.error e, st2)).1 = .ok (.obj j)
      rw [hres]
  · -- "jsonschema"
    obtain ⟨j, rfl⟩ := (henc : ∃ j, v = PyVal.obj j)
    obtain ⟨s, rfl⟩ := hschema (Or.inr (Or.inr (Or.inr rfl)))
    obtain ⟨hget, hlt⟩ := hreg (Or.inr (Or.inr (Or.inr rfl))) s rfl
    have hsid : schemaIdOf (0 :: natToBe4 (reg.register s topic_str kb) ++
        ext.jsSerialize s (some j)) = reg.register s topic_str kb :=
      schemaIdOf_header _ hlt _
    have hfst : (bytes_jsonschema_to_dict ext reg
        (0 :: natToBe4 (reg.register s topic_str kb) ++
          ext.jsSerialize s (some j)) kb st).1 = .ok j := by
      apply bytes_jsonschema_to_dict_fst_ok J ext reg _ kb st s j
      · rw [hsid]
        exact hget
      · intro s2 hk
        rw [hsid] at hk
        have h2 := hjscache rfl _ s2 hk
        rw [hget] at h2
        exact (Option.some.inj h2).symm
      · exact hjs rfl s j
          (0 :: natToBe4 (reg.register s topic_str kb)) rfl
    cases hres : bytes_jsonschema_to_dict ext reg
        (0 :: natToBe4 (reg.register s topic_str kb) ++
          ext.jsSerialize s (some j)) kb st with
    | mk r st1 =>
      rw [hres] at hfst
      have hr : r = .ok j := hfst
      subst hr
      show (match bytes_jsonschema_to_dict ext reg
          (0 :: natToBe4 (reg.register s topic_str kb) ++
            ext.jsSerialize s (some j)) kb st with
        | (.ok j2, st2) => ((.ok (.obj j2) : Except KashError (PyVal J)), st2)
        | (.error e, st2) => (.error e, st2)).1 = .ok (.obj j)
      rw [hres]

/-- C6 witness: the amended round-trip theorem at a structural format:
producing an avro value against the one-schema store (schema text "s",
id 1) and decoding the wire bytes recovers the value, with every
interface-contract hypothesis discharged at this concrete instance. -/
theorem C6_witness :
    (encodeThenDecode extU oneStore "t" "avro" (some "s") (.obj ()) false
      {}).1 = .ok (.obj ()) :=
  C6_amended_roundtrip Unit extU oneStore "t" "avro" (some "s") (.obj ())
    false {} (Or.inr (Or.inr (Or.inr (Or.inr (Or.inr (Or.inl rfl))))))
    ⟨(), rfl⟩
    (fun h => absurd h.1 (by decide))
    (fun h => absurd h (by decide))
    (fun _ => ⟨"s", rfl⟩)
    (fun _ s hs => by
      cases Option.some.inj hs
      exact ⟨rfl, by decide⟩)
    (fun h => by rcases h with h | h <;> exact absurd h (by decide))
    (fun h => by rcases h with h | h <;> exact absurd h (by decide))
    (fun _ s j hdr _ => rfl)
    (fun _ i s h => Option.noConfusion h)
    (fun h => absurd h (by decide))
    (fun h => absurd h (by decide))

/-! ## Pipeline infrastructure: consume characterization and frame facts -/

/-- The subscription fields of a cluster state, as one tuple. -/
def subFields (st : ClusterState) :
    Option String × Option String × Option String :=
  (st.subscribed_topic_str, st.subscribed_key_type_str,
   st.subscribed_value_type_str)

theorem subFields_setLastSchema (kb : Bool) (s : String) (st : ClusterState) :
    subFields (setLastSchema kb s st) = subFields st := by
  cases kb <;> rfl

theorem subFields_avro (J : Type) (ext : Externals J) (reg : Registry)
    (b : List Nat) (kb : Bool) (st : ClusterState) :
    subFields (bytes_avro_to_dict ext reg b kb st).2 = subFields st := by
  rw [bytes_avro_to_dict_snd]
  cases hk : st.avro_cache_dict.lookup (schemaIdOf b) with
  | some s => exact subFields_setLastSchema kb s st
  | none =>
    cases hg : reg.getSchema (schemaIdOf b) with
    | none => rfl
    | some s => rw [subFields_setLastSchema]; rfl

theorem subFields_protobuf (J : Type) (ext : Externals J) (reg : Registry)
    (b : List Nat) (kb : Bool) (st : ClusterState) :
    subFields (bytes_protobuf_to_dict ext reg b kb st).2 = subFields st := by
  rw [bytes_protobuf_to_dict_snd]
  cases hk : st.protobuf_cache_dict.lookup (schemaIdOf b) with
  | some p =>
    obtain ⟨gpmt, s⟩ := p
    exact subFields_setLastSchema kb s st
  | none =>
    cases hg : reg.getSchema (schemaIdOf b) with
    | none => rfl
    | some s => rw [subFields_setLastSchema]; rfl

theorem subFields_jsonschema (J : Type) (ext : Externals J) (reg : Registry)
    (b : List Nat) (kb : Bool) (st : ClusterState) :
    subFields (bytes_jsonschema_to_dict ext reg b kb st).2 = subFields st := by
  rw [bytes_jsonschema_to_dict_snd]
  cases hk : st.jsonschema_cache_dict.lookup (schemaIdOf b) with
  | some s => exact subFields_setLastSchema kb s st
  | none =>
    cases hg : reg.getSchema (schemaIdOf b) with
    | none => rfl
    | some s => rw [subFields_setLastSchema]; rfl

theorem subFields_decodePayload (J : Type) (ext : Externals J)
    (reg : Registry) (type_str : String) (b : Option (List Nat)) (kb : Bool)
    (st : ClusterState) :
    subFields (decodePayload ext reg type_str b kb st).2 = subFields st := by
  unfold decodePayload
  split_ifs with h1 h2 h3 h4 h5 h6
  · rfl
  · rfl
  · rfl
  · split
    · rfl
    · rename_i bs
      have hsub := subFields_protobuf J ext reg bs kb st
      split <;> rename_i heq <;> rw [heq] at hsub <;> exact hsub
  · split
    · rfl
    · rename_i bs
      have hsub := subFields_avro J ext reg bs kb st
      split <;> rename_i heq <;> rw [heq] at hsub <;> exact hsub
  · split
    · rfl
    · rename_i bs
      have hsub := subFields_jsonschema J ext reg bs kb st
      split <;> rename_i heq <;> rw [heq] at hsub <;> exact hsub
  · rfl

theorem subFields_m2md (J : Type) (ext : Externals J) (reg : Registry)
    (m : RawMessage) (kt vt : String) (st : ClusterState) :
    subFields (message_to_message_dict ext reg m kt vt st).2 =
      subFields st := by
  unfold message_to_message_dict
  have h1 := subFields_decodePayload J ext reg kt m.key true st
  split
  · rename_i e stk heq
    rw [heq] at h1
    exact h1
  · rename_i k stk heq
    rw [heq] at h1
    have h2 := subFields_decodePayload J ext reg vt m.value false stk
    split
    · rename_i e2 stv heq2
      rw [heq2] at h2
      exact h2.trans h1
    · rename_i v stv heq2
      rw [heq2] at h2
      exact h2.trans h1

theorem subFields_consumeDecode (J : Type) (ext : Externals J)
    (reg : Registry) (raws : List RawMessage) (kt vt : String)
    (st : ClusterState) :
    subFields (consumeDecode ext reg raws kt vt st).2 = subFields st := by
  induction raws generalizing st with
  | nil => rfl
  | cons m ms ih =>
    unfold consumeDecode
    have h1 := subFields_m2md J ext reg m kt vt st
    split
    · rename_i e stm heq
      rw [heq] at h1
      exact h1
    · rename_i md stm heq
      rw [heq] at h1
      have h2 := ih stm
      split
      · rename_i e str2 heq2
        rw [heq2] at h2
        exact h2.trans h1
      · rename_i mds str2 heq2
        rw [heq2] at h2
        exact h2.trans h1

theorem consume_not_subscribed (J : Type) (ext : Externals J)
    (reg : Registry) (n : Nat) (st : ClusterState)
    (pending : List RawMessage) (h : st.subscribed_topic_str = Option.none) :
    consume (J := J) ext reg n st pending =
      { result := .ok Option.none, cl := st, pending := pending,
        output := ["Please subscribe before you consume."] } := by
  unfold consume
  rw [h]

theorem consume_subscribed (J : Type) (ext : Externals J) (reg : Registry)
    (n : Nat) (st : ClusterState) (pending : List RawMessage) (t : String)
    (h : st.subscribed_topic_str = some t) :
    consume (J := J) ext reg n st pending =
      match consumeDecode ext reg (pending.take n)
          (st.subscribed_key_type_str.getD "")
          (st.subscribed_value_type_str.getD "") st with
      | (.error e, st1) =>
        { result := .error e, cl := st1, pending := pending.drop n,
          output := [] }
      | (.ok mds, st1) =>
        { result := .ok (some mds), cl := st1, pending := pending.drop n,
          output := [] } := by
  unfold consume
  rw [h]

theorem consumeDecode_length (J : Type) (ext : Externals J) (reg : Registry)
    (raws : List RawMessage) (kt vt : String) (st st1 : ClusterState)
    (mds : List (MessageDict J))
    (h : consumeDecode ext reg raws kt vt st = (.ok mds, st1)) :
    mds.length = raws.length := by
  induction raws generalizing st st1 mds with
  | nil =>
    unfold consumeDecode at h
    injection h with h1 h2
    injection h1 with h1
    rw [← h1]
    rfl
  | cons m ms ih =>
    unfold consumeDecode at h
    split at h
    · simp at h
    · rename_i md stm heq
      split at h
      · simp at h
      · rename_i mds2 str2 heq2
        injection h with h1 h2
        injection h1 with h1
        rw [← h1]
        simp [ih stm str2 mds2 heq2]

theorem message_to_message_dict_fields (J : Type) (ext : Externals J)
    (reg : Registry) (m : RawMessage) (kt vt : String)
    (st st1 : ClusterState) (md : MessageDict J)
    (h : message_to_message_dict ext reg m kt vt st = (.ok md, st1)) :
    md.partition = m.partition ∧ md.timestamp = m.timestamp ∧
      md.headers = m.headers := by
  unfold message_to_message_dict at h
  split at h
  · simp at h
  · rename_i k stk heq
    split at h
    · simp at h
    · rename_i v stv heq2
      injection h with h1 h2
      injection h1 with h1
      rw [← h1]
      exact ⟨rfl, rfl, rfl⟩

theorem consumeDecode_fields (J : Type) (ext : Externals J) (reg : Registry)
    (raws : List RawMessage) (kt vt : String) (st st1 : ClusterState)
    (mds : List (MessageDict J))
    (h : consumeDecode ext reg raws kt vt st = (.ok mds, st1)) :
    ∀ md ∈ mds, ∃ m ∈ raws, md.partition = m.partition ∧
      md.timestamp = m.timestamp ∧ md.headers = m.headers := by
  induction raws generalizing st st1 mds with
  | nil =>
    unfold consumeDecode at h
    injection h with h1 h2
    injection h1 with h1
    rw [← h1]
    intro md hmd
    exact absurd hmd (List.not_mem_nil md)
  | cons m ms ih =>
    unfold consumeDecode at h
    split at h
    · simp at h
    · rename_i md0 stm heq
      split at h
      · simp at h
      · rename_i mds2 str2 heq2
        injection h with h1 h2
        injection h1 with h1
        rw [← h1]
        intro md hmd
        rcases List.mem_cons.mp hmd with rfl | hmd2
        · obtain ⟨hp, ht, hh⟩ :=
            message_to_message_dict_fields J ext reg m kt vt st stm md heq
          exact ⟨m, List.mem_cons_self m ms, hp, ht, hh⟩
        · obtain ⟨m2, hm2, hfs⟩ := ih stm str2 mds2 heq2 md hmd2
          exact ⟨m2, List.mem_cons_of_mem m hm2, hfs⟩

/-! ## C1: timestamps and partitions in replicate -/

theorem processBatch_frame {J : Type} (ext : Externals J) (reg : Registry)
    (target_topic_str : String)
    (transform : Option (MessageDict J → Except KashError (MessageDict J)))
    (kt vt : String) (keep : Bool) (batch : List (MessageDict J))
    (rst : ReplicateState J) :
    (processBatch ext reg target_topic_str transform kt vt keep batch
      rst).2.src = rst.src ∧
    (processBatch ext reg target_topic_str transform kt vt keep batch
      rst).2.pending = rst.pending ∧
    (processBatch ext reg target_topic_str transform kt vt keep batch
      rst).2.message_counter_int = rst.message_counter_int := by
  induction batch generalizing rst with
  | nil => exact ⟨rfl, rfl, rfl⟩
  | cons md rest ih =>
    simp only [processBatch]
    split
    · exact ⟨rfl, rfl, rfl⟩
    · split
      · exact ⟨rfl, rfl, rfl⟩
      · split
        · exact ⟨rfl, rfl, rfl⟩
        · rename_i md1 htr t hts produced1 hpr
          exact ih _

theorem replicateLoop_succ_unsub {J : Type} (ext : Externals J)
    (reg : Registry) (target_topic_str : String)
    (transform : Option (MessageDict J → Except KashError (MessageDict J)))
    (kt vt : String) (keep : Bool) (n : Int) (bs : Nat) (f : Nat)
    (st : ReplicateState J)
    (hsub : st.src.subscribed_topic_str = Option.none) :
    replicateLoop ext reg target_topic_str transform kt vt keep n bs (f + 1)
      st = (.ok (), st) := by
  conv_lhs => rw [replicateLoop]
  rw [consume_not_subscribed J ext reg bs st.src st.pending hsub]

theorem replicateLoop_succ_err {J : Type} (ext : Externals J)
    (reg : Registry) (target_topic_str : String)
    (transform : Option (MessageDict J → Except KashError (MessageDict J)))
    (kt vt : String) (keep : Bool) (n : Int) (bs : Nat) (f : Nat)
    (st : ReplicateState J) (t : String) (e : KashError)
    (stcd : ClusterState)
    (hsub : st.src.subscribed_topic_str = some t)
    (hcd : consumeDecode ext reg (st.pending.take bs)
      (st.src.subscribed_key_type_str.getD "")
      (st.src.subscribed_value_type_str.getD "") st.src =
      (.error e, stcd)) :
    replicateLoop ext reg target_topic_str transform kt vt keep n bs (f + 1)
      st = (.error e,
        { st with src := stcd, pending := st.pending.drop bs }) := by
  conv_lhs => rw [replicateLoop]
  rw [consume_subscribed J ext reg bs st.src st.pending t hsub, hcd]

theorem replicateLoop_succ_nil {J : Type} (ext : Externals J)
    (reg : Registry) (target_topic_str : String)
    (transform : Option (MessageDict J → Except KashError (MessageDict J)))
    (kt vt : String) (keep : Bool) (n : Int) (bs : Nat) (f : Nat)
    (st : ReplicateState J) (t : String) (stcd : ClusterState)
    (hsub : st.src.subscribed_topic_str = some t)
    (hcd : consumeDecode ext reg (st.pending.take bs)
      (st.src.subscribed_key_type_str.getD "")
      (st.src.subscribed_value_type_str.getD "") st.src = (.ok [], stcd)) :
    replicateLoop ext reg target_topic_str transform kt vt keep n bs (f + 1)
      st = (.ok (),
        { st with src := stcd, pending := st.pending.drop bs }) := by
  conv_lhs => rw [replicateLoop]
  rw [consume_subscribed J ext reg bs st.src st.pending t hsub, hcd]

theorem replicateLoop_succ_cons {J : Type} (ext : Externals J)
    (reg : Registry) (target_topic_str : String)
    (transform : Option (MessageDict J → Except KashError (MessageDict J)))
    (kt vt : String) (keep : Bool) (n : Int) (bs : Nat) (f : Nat)
    (st : ReplicateState J) (t : String) (md0 : MessageDict J)
    (mds2 : List (MessageDict J)) (stcd : ClusterState)
    (hsub : st.src.subscribed_topic_str = some t)
    (hcd : consumeDecode ext reg (st.pending.take bs)
      (st.src.subscribed_key_type_str.getD "")
      (st.src.subscribed_value_type_str.getD "") st.src =
      (.ok (md0 :: mds2), stcd)) :
    replicateLoop ext reg target_topic_str transform kt vt keep n bs (f + 1)
      st =
      (match processBatch ext reg target_topic_str transform kt vt keep
          (md0 :: mds2)
          { st with src := stcd, pending := st.pending.drop bs } with
       | (.error e, st2) => (.error e, st2)
       | (.ok (), st2) =>
         if n ≠ ALL_MESSAGES ∧
             n ≤ ((st2.message_counter_int + (md0 :: mds2).length : Nat) :
               Int) then
           (.ok (), { st2 with message_counter_int :=
             st2.message_counter_int + (md0 :: mds2).length })
         else
           replicateLoop ext reg target_topic_str transform kt vt keep n bs f
             { st2 with message_counter_int :=
               st2.message_counter_int + (md0 :: mds2).length }) := by
  conv_lhs => rw [replicateLoop]
  rw [consume_subscribed J ext reg bs st.src st.pending t hsub, hcd]

theorem processBatch_fields {J : Type} (ext : Externals J) (reg : Registry)
    (target_topic_str kt vt : String) (keep : Bool)
    (batch : List (MessageDict J)) (rst : ReplicateState J)
    (r : ProducedRecord J)
    (hr : r ∈ (processBatch ext reg target_topic_str Option.none kt vt keep
      batch rst).2.produced) :
    r ∈ rst.produced ∨ ∃ md ∈ batch,
      r.partition = md.partition ∧ r.headers = md.headers ∧
      (keep = true → md.timestamp.1 = TIMESTAMP_CREATE_TIME →
        r.timestamp = md.timestamp.2) ∧
      (keep = false → r.timestamp = 0) := by
  induction batch generalizing rst with
  | nil => exact Or.inl hr
  | cons md rest ih =>
    simp only [processBatch] at hr
    split at hr
    · exact Or.inl hr
    · rename_i tv hts
      split at hr
      · exact Or.inl hr
      · rename_i produced1 hpr
        rcases ih _ hr with h1 | ⟨md2, hmd2, hf⟩
        · obtain ⟨kw, vw, hsent⟩ := produce_ok ext reg target_topic_str
            md.value md.key kt vt
            rst.src.last_consumed_message_key_schema_str
            rst.src.last_consumed_message_value_schema_str md.partition tv
            md.headers rst.produced produced1 hpr
          rw [hsent] at h1
          rcases List.mem_append.mp h1 with h3 | h3
          · exact Or.inl h3
          · rcases List.mem_singleton.mp h3 with rfl
            refine Or.inr ⟨md, List.mem_cons_self md rest, rfl, rfl, ?_, ?_⟩
            · intro hkeep hcr
              subst hkeep
              rw [if_pos rfl, if_pos hcr] at hts
              exact (Option.some.inj hts).symm
            · intro hkeep
              subst hkeep
              rw [if_neg (by simp)] at hts
              exact (Option.some.inj hts).symm
        · exact Or.inr ⟨md2, List.mem_cons_of_mem md hmd2, hf⟩

theorem replicateLoop_produced {J : Type} (ext : Externals J)
    (reg : Registry) (target_topic_str kt vt : String) (keep : Bool)
    (n : Int) (bs : Nat) (fuel : Nat) (st : ReplicateState J)
    (r : ProducedRecord J)
    (hr : r ∈ (replicateLoop ext reg target_topic_str Option.none kt vt keep
      n bs fuel st).2.produced) :
    r ∈ st.produced ∨ ∃ m ∈ st.pending,
      r.partition = m.partition ∧ r.headers = m.headers ∧
      (keep = true → m.timestamp.1 = TIMESTAMP_CREATE_TIME →
        r.timestamp = m.timestamp.2) ∧
      (keep = false → r.timestamp = 0) := by
  induction fuel generalizing st with
  | zero => exact Or.inl hr
  | succ f ih =>
    cases hsub : st.src.subscribed_topic_str with
    | none =>
      rw [replicateLoop_succ_unsub ext reg target_topic_str Option.none kt vt
        keep n bs f st hsub] at hr
      exact Or.inl hr
    | some t =>
      cases hcd : consumeDecode ext reg (st.pending.take bs)
          (st.src.subscribed_key_type_str.getD "")
          (st.src.subscribed_value_type_str.getD "") st.src with
      | mk rcd stcd =>
        cases rcd with
        | error e =>
          rw [replicateLoop_succ_err ext reg target_topic_str Option.none kt
            vt keep n bs f st t e stcd hsub hcd] at hr
          exact Or.inl hr
        | ok mds =>
          cases mds with
          | nil =>
            rw [replicateLoop_succ_nil ext reg target_topic_str Option.none
              kt vt keep n bs f st t stcd hsub hcd] at hr
            exact Or.inl hr
          | cons md0 mds2 =>
            rw [replicateLoop_succ_cons ext reg target_topic_str Option.none
              kt vt keep n bs f st t md0 mds2 stcd hsub hcd] at hr
            have hbatch : ∀ md ∈ md0 :: mds2, ∃ m ∈ st.pending,
                md.partition = m.partition ∧ md.timestamp = m.timestamp ∧
                md.headers = m.headers := by
              intro md hmd
              obtain ⟨m, hm, hfs⟩ := consumeDecode_fields J ext reg
                (st.pending.take bs) (st.src.subscribed_key_type_str.getD "")
                (st.src.subscribed_value_type_str.getD "") st.src stcd
                (md0 :: mds2) hcd md hmd
              exact ⟨m, List.mem_of_mem_take hm, hfs⟩
            cases hpb : processBatch ext reg target_topic_str Option.none kt
                vt keep (md0 :: mds2)
                { st with src := stcd, pending := st.pending.drop bs } with
            | mk rpb st2 =>
              rw [hpb] at hr
              have hmain : r ∈ st2.produced →
                  r ∈ st.produced ∨ ∃ m ∈ st.pending,
                    r.partition = m.partition ∧ r.headers = m.headers ∧
                    (keep = true → m.timestamp.1 = TIMESTAMP_CREATE_TIME →
                      r.timestamp = m.timestamp.2) ∧
                    (keep = false → r.timestamp = 0) := by
                intro hr2
                have hr3 : r ∈ (processBatch ext reg target_topic_str
                    Option.none kt vt keep (md0 :: mds2)
                    { st with src := stcd, pending := st.pending.drop bs
                    }).2.produced := by
                  rw [hpb]
                  exact hr2
                rcases processBatch_fields ext reg target_topic_str kt vt
                    keep (md0 :: mds2) _ r hr3 with h1 | ⟨md, hmd, hp, hh,
                      hkt, hkf⟩
                · exact Or.inl h1
                · obtain ⟨m, hm, hmp, hmt, hmh⟩ := hbatch md hmd
                  refine Or.inr ⟨m, hm, hp.trans hmp, hh.trans hmh, ?_, hkf⟩
                  intro hkeep hcr
                  rw [← hmt] at hcr
                  rw [hkt hkeep hcr, hmt]
              cases rpb with
              | error e => exact hmain hr
              | ok u =>
                cases u
                have hrif : r ∈ (if n ≠ ALL_MESSAGES ∧
                    n ≤ ((st2.message_counter_int +
                      (md0 :: mds2).length : Nat) : Int) then
                    ((Except.ok (), { st2 with message_counter_int :=
                      st2.message_counter_int + (md0 :: mds2).length }) :
                      Except KashError Unit × ReplicateState J)
                  else
                    replicateLoop ext reg target_topic_str Option.none kt vt
                      keep n bs f { st2 with message_counter_int :=
                        st2.message_counter_int + (md0 :: mds2).length
                      }).2.produced := hr
                by_cases hcond : (n ≠ ALL_MESSAGES ∧
                    n ≤ ((st2.message_counter_int +
                      (md0 :: mds2).length : Nat) : Int))
                · rw [if_pos hcond] at hrif
                  exact hmain hrif
                · rw [if_neg hcond] at hrif
                  rcases ih _ hrif with h1 | ⟨m, hm, hf⟩
                  · exact hmain h1
                  · have hp2 : st2.pending = st.pending.drop bs := by
                      have h3 := (processBatch_frame ext reg target_topic_str
                        Option.none kt vt keep (md0 :: mds2)
                        { st with src := stcd, pending := st.pending.drop bs
                        }).2.1
                      rw [hpb] at h3
                      exact h3
                    have hm2 : m ∈ st2.pending := hm
                    rw [hp2] at hm2
                    exact Or.inr ⟨m, List.mem_of_mem_drop hm2, hf⟩

/-- A source message whose timestamp type is `TIMESTAMP_CREATE_TIME`. -/
def c1msg1 : RawMessage :=
  { headers := Option.none, partition := 0, offset := 0,
    timestamp := (TIMESTAMP_CREATE_TIME, 100), key := Option.none,
    value := some [1] }

/-- A source message whose timestamp type is `TIMESTAMP_LOG_APPEND_TIME`
(2), not `TIMESTAMP_CREATE_TIME`. -/
def c1msg2 : RawMessage :=
  { headers := Option.none, partition := 0, offset := 1,
    timestamp := (2, 555), key := Option.none, value := some [2] }

/-- A concrete `replicate` run with `keep_timestamps = true` over
`[c1msg1, c1msg2]` in one batch. -/
def c1run : Except KashError Unit × ReplicateState Unit :=
  replicate extU noStore "s" "t" Option.none "bytes" "bytes" true (-1) 2
    {} [c1msg1, c1msg2]

/-- The second record `c1run` produces. -/
def c1rec2 : ProducedRecord Unit :=
  { topic_str := "t", value := .bytes [2], key := .none,
    key_type := "bytes", value_type := "bytes", key_schema := Option.none,
    value_schema := Option.none, partition := 0, timestamp := 100,
    headers := Option.none, wire_key := Option.none, wire_value := some [2] }

/-- C1 counterexample: with `keep_timestamps = true`, a source message
whose timestamp type is not `TIMESTAMP_CREATE_TIME` is not copied with its
own timestamp: `timestamp_int` keeps the value of the previous message
(kash.py lines 367-372 only rebind it for create-time stamps), so the run
over timestamps 100 and 555 produces copies stamped 100 and 100, and the
second copy's 100 differs from its source's 555. -/
theorem C1_counterexample :
    c1run.1 = .ok () ∧
    c1run.2.produced.map (fun r => r.timestamp) = [100, 100] ∧
    [c1msg1, c1msg2].map (fun m => m.timestamp.2) = [100, 555] ∧
    ¬ ((100 : Int) = (555 : Int)) :=
  ⟨rfl, rfl, rfl, by decide⟩

/-- C1 (amended): every record `replicate` (without a transform function)
produces comes from a source message of the input stream with partition
and headers copied verbatim; with `keep_timestamps = true` the copy
carries the source's timestamp whenever the source's timestamp type is
`TIMESTAMP_CREATE_TIME` (for other timestamp types the code reuses the
last create-time value seen, or fails on an unbound variable); with
`keep_timestamps = false` the copy is produced with timestamp 0 (broker
assigns). -/
theorem C1_amended_timestamps (J : Type) (ext : Externals J)
    (reg : Registry) (source_topic_str target_topic_str kt vt : String)
    (keep : Bool) (n : Int) (bs : Nat) (src0 : ClusterState)
    (pending0 : List RawMessage) (r : ProducedRecord J)
    (hr : r ∈ (replicate ext reg source_topic_str target_topic_str
      Option.none kt vt keep n bs src0 pending0).2.produced) :
    ∃ m ∈ pending0, r.partition = m.partition ∧ r.headers = m.headers ∧
      (keep = true → m.timestamp.1 = TIMESTAMP_CREATE_TIME →
        r.timestamp = m.timestamp.2) ∧
      (keep = false → r.timestamp = 0) := by
  simp only [replicate] at hr
  cases hloop : replicateLoop ext reg target_topic_str Option.none kt vt
      keep n bs (pending0.length + 1)
      { src := subscribe source_topic_str kt vt src0, pending := pending0,
        produced := [], timestamp_int := Option.none,
        message_counter_int := 0 } with
  | mk lr lst =>
    rw [hloop] at hr
    have hr2 : r ∈ lst.produced := by
      cases lr with
      | error e => exact hr
      | ok u => cases u; exact hr
    have h := replicateLoop_produced ext reg target_topic_str kt vt keep n
      bs (pending0.length + 1)
      { src := subscribe source_topic_str kt vt src0, pending := pending0,
        produced := [], timestamp_int := Option.none,
        message_counter_int := 0 } r (by rw [hloop]; exact hr2)
    rcases h with h1 | ⟨m, hm, hf⟩
    · exact absurd h1 (List.not_mem_nil r)
    · exact ⟨m, hm, hf⟩

/-- C1 witness: the amended theorem applied to the concrete run `c1run`
and its second produced record. -/
theorem C1_witness :
    ∃ m ∈ [c1msg1, c1msg2], c1rec2.partition = m.partition ∧
      c1rec2.headers = m.headers ∧
      (true = true → m.timestamp.1 = TIMESTAMP_CREATE_TIME →
        c1rec2.timestamp = m.timestamp.2) ∧
      (true = false → c1rec2.timestamp = 0) :=
  C1_amended_timestamps Unit extU noStore "s" "t" "bytes" "bytes" true (-1)
    2 {} [c1msg1, c1msg2] c1rec2 (by decide)

/-! ## C2: unsubscribe on loop exit -/

theorem foldLoop_succ_unsub {J A : Type} (ext : Externals J)
    (reg : Registry) (ff : MessageDict J → Except KashError (List A))
    (n : Int) (bs : Nat) (f : Nat) (st : FoldState J A)
    (hsub : st.cl.subscribed_topic_str = Option.none) :
    foldLoop ext reg ff n bs (f + 1) st = (.ok (), st) := by
  conv_lhs => rw [foldLoop]
  rw [consume_not_subscribed J ext reg bs st.cl st.pending hsub]

theorem foldLoop_succ_err {J A : Type} (ext : Externals J)
    (reg : Registry) (ff : MessageDict J → Except KashError (List A))
    (n : Int) (bs : Nat) (f : Nat) (st : FoldState J A) (t : String)
    (e : KashError) (stcd : ClusterState)
    (hsub : st.cl.subscribed_topic_str = some t)
    (hcd : consumeDecode ext reg (st.pending.take bs)
      (st.cl.subscribed_key_type_str.getD "")
      (st.cl.subscribed_value_type_str.getD "") st.cl = (.error e, stcd)) :
    foldLoop ext reg ff n bs (f + 1) st = (.error e,
      { st with cl := stcd, pending := st.pending.drop bs }) := by
  conv_lhs => rw [foldLoop]
  rw [consume_subscribed J ext reg bs st.cl st.pending t hsub, hcd]

theorem foldLoop_succ_nil {J A : Type} (ext : Externals J)
    (reg : Registry) (ff : MessageDict J → Except KashError (List A))
    (n : Int) (bs : Nat) (f : Nat) (st : FoldState J A) (t : String)
    (stcd : ClusterState)
    (hsub : st.cl.subscribed_topic_str = some t)
    (hcd : consumeDecode ext reg (st.pending.take bs)
      (st.cl.subscribed_key_type_str.getD "")
      (st.cl.subscribed_value_type_str.getD "") st.cl = (.ok [], stcd)) :
    foldLoop ext reg ff n bs (f + 1) st = (.ok (),
      { st with cl := stcd, pending := st.pending.drop bs }) := by
  conv_lhs => rw [foldLoop]
  rw [consume_subscribed J ext reg bs st.cl st.pending t hsub, hcd]

theorem foldLoop_succ_cons {J A : Type} (ext : Externals J)
    (reg : Registry) (ff : MessageDict J → Except KashError (List A))
    (n : Int) (bs : Nat) (f : Nat) (st : FoldState J A) (t : String)
    (md0 : MessageDict J) (mds2 : List (MessageDict J))
    (stcd : ClusterState)
    (hsub : st.cl.subscribed_topic_str = some t)
    (hcd : consumeDecode ext reg (st.pending.take bs)
      (st.cl.subscribed_key_type_str.getD "")
      (st.cl.subscribed_value_type_str.getD "") st.cl =
      (.ok (md0 :: mds2), stcd)) :
    foldLoop ext reg ff n bs (f + 1) st =
      (match foldBatch ff (md0 :: mds2) with
       | .error e => (.error e,
           { st with cl := stcd, pending := st.pending.drop bs })
       | .ok acc1 =>
         if n ≠ ALL_MESSAGES ∧
             n ≤ ((st.message_counter_int + (md0 :: mds2).length : Nat) :
               Int) then
           (.ok (), { st with cl := stcd, pending := st.pending.drop bs,
                              acc_list := st.acc_list ++ acc1,
                              message_counter_int := st.message_counter_int +
                                (md0 :: mds2).length })
         else
           foldLoop ext reg ff n bs f
             { st with cl := stcd, pending := st.pending.drop bs,
                       acc_list := st.acc_list ++ acc1,
                       message_counter_int := st.message_counter_int +
                         (md0 :: mds2).length }) := by
  conv_lhs => rw [foldLoop]
  rw [consume_subscribed J ext reg bs st.cl st.pending t hsub, hcd]

theorem downloadLoop_succ_unsub {J : Type} (ext : Externals J)
    (reg : Registry) (kvs : Option (List Nat)) (msep : List Nat)
    (n : Int) (bs : Nat) (f : Nat) (st : DownloadState J)
    (hsub : st.cl.subscribed_topic_str = Option.none) :
    downloadLoop ext reg kvs msep n bs (f + 1) st = (.ok (), st) := by
  conv_lhs => rw [downloadLoop]
  rw [consume_not_subscribed J ext reg bs st.cl st.pending hsub]

theorem downloadLoop_succ_err {J : Type} (ext : Externals J)
    (reg : Registry) (kvs : Option (List Nat)) (msep : List Nat)
    (n : Int) (bs : Nat) (f : Nat) (st : DownloadState J) (t : String)
    (e : KashError) (stcd : ClusterState)
    (hsub : st.cl.subscribed_topic_str = some t)
    (hcd : consumeDecode ext reg (st.pending.take bs)
      (st.cl.subscribed_key_type_str.getD "")
      (st.cl.subscribed_value_type_str.getD "") st.cl = (.error e, stcd)) :
    downloadLoop ext reg kvs msep n bs (f + 1) st = (.error e,
      { st with cl := stcd, pending := st.pending.drop bs }) := by
  conv_lhs => rw [downloadLoop]
  rw [consume_subscribed J ext reg bs st.cl st.pending t hsub, hcd]

theorem downloadLoop_succ_nil {J : Type} (ext : Externals J)
    (reg : Registry) (kvs : Option (List Nat)) (msep : List Nat)
    (n : Int) (bs : Nat) (f : Nat) (st : DownloadState J) (t : String)
    (stcd : ClusterState)
    (hsub : st.cl.subscribed_topic_str = some t)
    (hcd : consumeDecode ext reg (st.pending.take bs)
      (st.cl.subscribed_key_type_str.getD "")
      (st.cl.subscribed_value_type_str.getD "") st.cl = (.ok [], stcd)) :
    downloadLoop ext reg kvs msep n bs (f + 1) st = (.ok (),
      { st with cl := stcd, pending := st.pending.drop bs }) := by
  conv_lhs => rw [downloadLoop]
  rw [consume_subscribed J ext reg bs st.cl st.pending t hsub, hcd]

theorem downloadLoop_succ_cons {J : Type} (ext : Externals J)
    (reg : Registry) (kvs : Option (List Nat)) (msep : List Nat)
    (n : Int) (bs : Nat) (f : Nat) (st : DownloadState J) (t : String)
    (md0 : MessageDict J) (mds2 : List (MessageDict J))
    (stcd : ClusterState)
    (hsub : st.cl.subscribed_topic_str = some t)
    (hcd : consumeDecode ext reg (st.pending.take bs)
      (st.cl.subscribed_key_type_str.getD "")
      (st.cl.subscribed_value_type_str.getD "") st.cl =
      (.ok (md0 :: mds2), stcd)) :
    downloadLoop ext reg kvs msep n bs (f + 1) st =
      (if n ≠ ALL_MESSAGES ∧
          n ≤ ((st.message_counter_int + (md0 :: mds2).length : Nat) :
            Int) then
        (.ok (), { st with cl := stcd, pending := st.pending.drop bs,
                           lines := st.lines ++
                             downloadBatchLines ext kvs msep (md0 :: mds2),
                           message_counter_int := st.message_counter_int +
                             (md0 :: mds2).length })
      else
        downloadLoop ext reg kvs msep n bs f
          { st with cl := stcd, pending := st.pending.drop bs,
                    lines := st.lines ++
                      downloadBatchLines ext kvs msep (md0 :: mds2),
                    message_counter_int := st.message_counter_int +
                      (md0 :: mds2).length }) := by
  conv_lhs => rw [downloadLoop]
  rw [consume_subscribed J ext reg bs st.cl st.pending t hsub, hcd]

theorem replicateLoop_sub {J : Type} (ext : Externals J) (reg : Registry)
    (target_topic_str : String)
    (transform : Option (MessageDict J → Except KashError (MessageDict J)))
    (kt vt : String) (keep : Bool) (n : Int) (bs : Nat) (fuel : Nat)
    (st : ReplicateState J) :
    subFields (replicateLoop ext reg target_topic_str transform kt vt keep
      n bs fuel st).2.src = subFields st.src := by
  induction fuel generalizing st with
  | zero => rfl
  | succ f ih =>
    cases hsub : st.src.subscribed_topic_str with
    | none =>
      rw [replicateLoop_succ_unsub ext reg target_topic_str transform kt vt
        keep n bs f st hsub]
    | some t =>
      cases hcd : consumeDecode ext reg (st.pending.take bs)
          (st.src.subscribed_key_type_str.getD "")
          (st.src.subscribed_value_type_str.getD "") st.src with
      | mk rcd stcd =>
        have hcds : subFields stcd = subFields st.src := by
          have h := subFields_consumeDecode J ext reg (st.pending.take bs)
            (st.src.subscribed_key_type_str.getD "")
            (st.src.subscribed_value_type_str.getD "") st.src
          rw [hcd] at h
          exact h
        cases rcd with
        | error e =>
          rw [replicateLoop_succ_err ext reg target_topic_str transform kt
            vt keep n bs f st t e stcd hsub hcd]
          exact hcds
        | ok mds =>
          cases mds with
          | nil =>
            rw [replicateLoop_succ_nil ext reg target_topic_str transform kt
              vt keep n bs f st t stcd hsub hcd]
            exact hcds
          | cons md0 mds2 =>
            rw [replicateLoop_succ_cons ext reg target_topic_str transform
              kt vt keep n bs f st t md0 mds2 stcd hsub hcd]
            cases hpb : processBatch ext reg target_topic_str transform kt
                vt keep (md0 :: mds2)
                { st with src := stcd, pending := st.pending.drop bs } with
            | mk rpb st2 =>
              have hpbs : st2.src = stcd := by
                have h := (processBatch_frame ext reg target_topic_str
                  transform kt vt keep (md0 :: mds2)
                  { st with src := stcd, pending := st.pending.drop bs
                  }).1
                rw [hpb] at h
                exact h
              cases rpb with
              | error e =>
                show subFields st2.src = subFields st.src
                rw [hpbs]
                exact hcds
              | ok u =>
                cases u
                show subFields (if n ≠ ALL_MESSAGES ∧
                    n ≤ ((st2.message_counter_int +
                      (md0 :: mds2).length : Nat) : Int) then
                    ((Except.ok (), { st2 with message_counter_int :=
                      st2.message_counter_int + (md0 :: mds2).length }) :
                      Except KashError Unit × ReplicateState J)
                  else
                    replicateLoop ext reg target_topic_str transform kt vt
                      keep n bs f { st2 with message_counter_int :=
                        st2.message_counter_int + (md0 :: mds2).length
                      }).2.src = subFields st.src
                by_cases hcond : (n ≠ ALL_MESSAGES ∧
                    n ≤ ((st2.message_counter_int +
                      (md0 :: mds2).length : Nat) : Int))
                · rw [if_pos hcond]
                  show subFields st2.src = subFields st.src
                  rw [hpbs]
                  exact hcds
                · rw [if_neg hcond]
                  rw [ih { st2 with message_counter_int :=
                    st2.message_counter_int + (md0 :: mds2).length }]
                  show subFields st2.src = subFields st.src
                  rw [hpbs]
                  exact hcds

theorem foldLoop_sub {J A : Type} (ext : Externals J) (reg : Registry)
    (ff : MessageDict J → Except KashError (List A)) (n : Int) (bs : Nat)
    (fuel : Nat) (st : FoldState J A) :
    subFields (foldLoop ext reg ff n bs fuel st).2.cl = subFields st.cl := by
  induction fuel generalizing st with
  | zero => rfl
  | succ f ih =>
    cases hsub : st.cl.subscribed_topic_str with
    | none => rw [foldLoop_succ_unsub ext reg ff n bs f st hsub]
    | some t =>
      cases hcd : consumeDecode ext reg (st.pending.take bs)
          (st.cl.subscribed_key_type_str.getD "")
          (st.cl.subscribed_value_type_str.getD "") st.cl with
      | mk rcd stcd =>
        have hcds : subFields stcd = subFields st.cl := by
          have h := subFields_consumeDecode J ext reg (st.pending.take bs)
            (st.cl.subscribed_key_type_str.getD "")
            (st.cl.subscribed_value_type_str.getD "") st.cl
          rw [hcd] at h
          exact h
        cases rcd with
        | error e =>
          rw [foldLoop_succ_err ext reg ff n bs f st t e stcd hsub hcd]
          exact hcds
        | ok mds =>
          cases mds with
          | nil =>
            rw [foldLoop_succ_nil ext reg ff n bs f st t stcd hsub hcd]
            exact hcds
          | cons md0 mds2 =>
            rw [foldLoop_succ_cons ext reg ff n bs f st t md0 mds2 stcd hsub
              hcd]
            cases hfb : foldBatch ff (md0 :: mds2) with
            | error e => exact hcds
            | ok acc1 =>
              show subFields (if n ≠ ALL_MESSAGES ∧
                  n ≤ ((st.message_counter_int +
                    (md0 :: mds2).length : Nat) : Int) then
                  ((Except.ok (),
                    { st with cl := stcd,
                              pending := st.pending.drop bs,
                              acc_list := st.acc_list ++ acc1,
                              message_counter_int :=
                                st.message_counter_int +
                                  (md0 :: mds2).length }) :
                    Except KashError Unit × FoldState J A)
                else
                  foldLoop ext reg ff n bs f
                    { st with cl := stcd,
                              pending := st.pending.drop bs,
                              acc_list := st.acc_list ++ acc1,
                              message_counter_int :=
                                st.message_counter_int +
                                  (md0 :: mds2).length }).2.cl =
                subFields st.cl
              by_cases hcond : (n ≠ ALL_MESSAGES ∧
                  n ≤ ((st.message_counter_int +
                    (md0 :: mds2).length : Nat) : Int))
              · rw [if_pos hcond]
                exact hcds
              · rw [if_neg hcond]
                rw [ih
                  { st with cl := stcd,
                            pending := st.pending.drop bs,
                            acc_list := st.acc_list ++ acc1,
                            message_counter_int :=
                              st.message_counter_int +
                                (md0 :: mds2).length }]
                exact hcds

theorem downloadLoop_sub {J : Type} (ext : Externals J) (reg : Registry)
    (kvs : Option (List Nat)) (msep : List Nat) (n : Int) (bs : Nat)
    (fuel : Nat) (st : DownloadState J) :
    subFields (downloadLoop ext reg kvs msep n bs fuel st).2.cl =
      subFields st.cl := by
  induction fuel generalizing st with
  | zero => rfl
  | succ f ih =>
    cases hsub : st.cl.subscribed_topic_str with
    | none => rw [downloadLoop_succ_unsub ext reg kvs msep n bs f st hsub]
    | some t =>
      cases hcd : consumeDecode ext reg (st.pending.take bs)
          (st.cl.subscribed_key_type_str.getD "")
          (st.cl.subscribed_value_type_str.getD "") st.cl with
      | mk rcd stcd =>
        have hcds : subFields stcd = subFields st.cl := by
          have h := subFields_consumeDecode J ext reg (st.pending.take bs)
            (st.cl.subscribed_key_type_str.getD "")
            (st.cl.subscribed_value_type_str.getD "") st.cl
          rw [hcd] at h
          exact h
        cases rcd with
        | error e =>
          rw [downloadLoop_succ_err ext reg kvs msep n bs f st t e stcd hsub
            hcd]
          exact hcds
        | ok mds =>
          cases mds with
          | nil =>
            rw [downloadLoop_succ_nil ext reg kvs msep n bs f st t stcd hsub
              hcd]
            exact hcds
          | cons md0 mds2 =>
            rw [downloadLoop_succ_cons ext reg kvs msep n bs f st t md0 mds2
              stcd hsub hcd]
            by_cases hcond : (n ≠ ALL_MESSAGES ∧
                n ≤ ((st.message_counter_int +
                  (md0 :: mds2).length : Nat) : Int))
            · rw [if_pos hcond]
              exact hcds
            · rw [if_neg hcond]
              rw [ih
                { st with cl := stcd,
                          pending := st.pending.drop bs,
                          lines := st.lines ++
                            downloadBatchLines ext kvs msep (md0 :: mds2),
                          message_counter_int :=
                            st.message_counter_int +
                              (md0 :: mds2).length }]
              exact hcds

/-- A fold function that raises on every message. -/
def c2foldFun : MessageDict Unit → Except KashError (List Unit) :=
  fun _ => .error (.userErr 0)

/-- A concrete failing `fold` run: the fold function raises on the first
message of the batch. -/
def c2fold : Except KashError (List Unit) × FoldState Unit Unit :=
  fold extU noStore "t" c2foldFun "bytes" "bytes" (-1) 1 {} [offsetMsg 0]

/-- A concrete successful `replicate` run over one message. -/
def c2rep : Except KashError Unit × ReplicateState Unit :=
  replicate extU noStore "t" "t2" Option.none "bytes" "bytes" true (-1) 1
    {} [offsetMsg 0]

/-- A concrete successful `download` run over one message. -/
def c2dl : Except KashError Unit × DownloadState Unit :=
  download extU noStore "t" [] "bytes" "bytes" Option.none [] true (-1) 1
    {} [offsetMsg 0]

/-- C2 counterexample: the pipelines have no `try/finally` around the
consume loop, so when the loop body raises (here: the fold function of a
`fold` run raises on the first message), `unsubscribe` is skipped and the
cluster is left subscribed to the source topic, not unsubscribed. -/
theorem C2_counterexample :
    c2fold.1 = .error (.userErr 0) ∧
    c2fold.2.cl.subscribed_topic_str = some "t" ∧
    some "t" ≠ (Option.none : Option String) :=
  ⟨rfl, rfl, by decide⟩

/-- C2 (amended): for each of the three batched consume pipelines
(`replicate`, `fold`, `download`), `unsubscribe` runs exactly on normal
loop exit: a run that returns normally ends unsubscribed, while a run
that raises propagates the exception and leaves the cluster still
subscribed to the source topic. -/
theorem C2_amended_unsubscribe (J A : Type) (ext : Externals J)
    (reg : Registry) (topic_str target_topic_str : String)
    (transform : Option (MessageDict J → Except KashError (MessageDict J)))
    (ff : MessageDict J → Except KashError (List A))
    (kt vt : String) (keep : Bool) (n : Int) (bs : Nat)
    (cl0 : ClusterState) (pending0 : List RawMessage)
    (file0 : List (List Nat)) (kvs : Option (List Nat)) (msep : List Nat)
    (ow : Bool) :
    (∀ u : Unit, (replicate ext reg topic_str target_topic_str transform
        kt vt keep n bs cl0 pending0).1 = .ok u →
      (replicate ext reg topic_str target_topic_str transform kt vt keep n
        bs cl0 pending0).2.src.subscribed_topic_str = Option.none) ∧
    (∀ e : KashError, (replicate ext reg topic_str target_topic_str
        transform kt vt keep n bs cl0 pending0).1 = .error e →
      (replicate ext reg topic_str target_topic_str transform kt vt keep n
        bs cl0 pending0).2.src.subscribed_topic_str = some topic_str) ∧
    (∀ xs : List A, (fold ext reg topic_str ff kt vt n bs cl0
        pending0).1 = .ok xs →
      (fold ext reg topic_str ff kt vt n bs cl0
        pending0).2.cl.subscribed_topic_str = Option.none) ∧
    (∀ e : KashError, (fold ext reg topic_str ff kt vt n bs cl0
        pending0).1 = .error e →
      (fold ext reg topic_str ff kt vt n bs cl0
        pending0).2.cl.subscribed_topic_str = some topic_str) ∧
    (∀ u : Unit, (download ext reg topic_str file0 kt vt kvs msep ow n bs
        cl0 pending0).1 = .ok u →
      (download ext reg topic_str file0 kt vt kvs msep ow n bs cl0
        pending0).2.cl.subscribed_topic_str = Option.none) ∧
    (∀ e : KashError, (download ext reg topic_str file0 kt vt kvs msep ow
        n bs cl0 pending0).1 = .error e →
      (download ext reg topic_str file0 kt vt kvs msep ow n bs cl0
        pending0).2.cl.subscribed_topic_str = some topic_str) := by
  refine ⟨?_, ?_, ?_, ?_, ?_, ?_⟩
  · intro u h
    simp only [replicate] at h ⊢
    cases hloop : replicateLoop ext reg target_topic_str transform kt vt
        keep n bs (pending0.length + 1)
        { src := subscribe topic_str kt vt cl0, pending := pending0,
          produced := [], timestamp_int := Option.none,
          message_counter_int := 0 } with
    | mk lr lst =>
      rw [hloop] at h
      cases lr with
      | error e => exact Except.noConfusion h
      | ok u2 => cases u2; rfl
  · intro e h
    simp only [replicate] at h ⊢
    cases hloop : replicateLoop ext reg target_topic_str transform kt vt
        keep n bs (pending0.length + 1)
        { src := subscribe topic_str kt vt cl0, pending := pending0,
          produced := [], timestamp_int := Option.none,
          message_counter_int := 0 } with
    | mk lr lst =>
      rw [hloop] at h
      cases lr with
      | ok u2 => cases u2; exact Except.noConfusion h
      | error e2 =>
        have hs := replicateLoop_sub ext reg target_topic_str transform kt
          vt keep n bs (pending0.length + 1)
          { src := subscribe topic_str kt vt cl0, pending := pending0,
            produced := [], timestamp_int := Option.none,
            message_counter_int := 0 }
        rw [hloop] at hs
        exact congrArg Prod.fst hs
  · intro xs h
    simp only [fold] at h ⊢
    cases hloop : foldLoop ext reg ff n bs (pending0.length + 1)
        { cl := subscribe topic_str kt vt cl0, pending := pending0,
          acc_list := [], message_counter_int := 0 } with
    | mk lr lst =>
      rw [hloop] at h
      cases lr with
      | error e => exact Except.noConfusion h
      | ok u2 => cases u2; rfl
  · intro e h
    simp only [fold] at h ⊢
    cases hloop : foldLoop ext reg ff n bs (pending0.length + 1)
        { cl := subscribe topic_str kt vt cl0, pending := pending0,
          acc_list := [], message_counter_int := 0 } with
    | mk lr lst =>
      rw [hloop] at h
      cases lr with
      | ok u2 => cases u2; exact Except.noConfusion h
      | error e2 =>
        have hs := foldLoop_sub ext reg ff n bs (pending0.length + 1)
          { cl := subscribe topic_str kt vt cl0, pending := pending0,
            acc_list := [], message_counter_int := 0 }
        rw [hloop] at hs
        exact congrArg Prod.fst hs
  · intro u h
    simp only [download] at h ⊢
    cases hloop : downloadLoop ext reg kvs msep n bs (pending0.length + 1)
        { cl := subscribe topic_str kt vt cl0, pending := pending0,
          lines := if ow then [] else file0, message_counter_int := 0 } with
    | mk lr lst =>
      rw [hloop] at h
      cases lr with
      | error e => exact Except.noConfusion h
      | ok u2 => cases u2; rfl
  · intro e h
    simp only [download] at h ⊢
    cases hloop : downloadLoop ext reg kvs msep n bs (pending0.length + 1)
        { cl := subscribe topic_str kt vt cl0, pending := pending0,
          lines := if ow then [] else file0, message_counter_int := 0 } with
    | mk lr lst =>
      rw [hloop] at h
      cases lr with
      | ok u2 => cases u2; exact Except.noConfusion h
      | error e2 =>
        have hs := downloadLoop_sub ext reg kvs msep n bs
          (pending0.length + 1)
          { cl := subscribe topic_str kt vt cl0, pending := pending0,
            lines := if ow then [] else file0, message_counter_int := 0 }
        rw [hloop] at hs
        exact congrArg Prod.fst hs

/-- C2 witness: the amended theorem applied to a successful `replicate`
run, a failing `fold` run and a successful `download` run over one
pending message. -/
theorem C2_witness :
    c2rep.2.src.subscribed_topic_str = Option.none ∧
    c2fold.2.cl.subscribed_topic_str = some "t" ∧
    c2dl.2.cl.subscribed_topic_str = Option.none :=
  ⟨(C2_amended_unsubscribe Unit Unit extU noStore "t" "t2" Option.none
      c2foldFun "bytes" "bytes" true (-1) 1 {} [offsetMsg 0] []
      Option.none [] true).1 () rfl,
   (C2_amended_unsubscribe Unit Unit extU noStore "t" "t2" Option.none
      c2foldFun "bytes" "bytes" true (-1) 1 {} [offsetMsg 0] []
      Option.none [] true).2.2.2.1 (.userErr 0) rfl,
   (C2_amended_unsubscribe Unit Unit extU noStore "t" "t2" Option.none
      c2foldFun "bytes" "bytes" true (-1) 1 {} [offsetMsg 0] []
      Option.none [] true).2.2.2.2.1 () rfl⟩

/-! ## C4: batch-boundary termination and the message budget -/

theorem replicateLoop_counter {J : Type} (ext : Externals J)
    (reg : Registry) (target_topic_str : String)
    (transform : Option (MessageDict J → Except KashError (MessageDict J)))
    (kt vt : String) (keep : Bool) (n : Int) (bs : Nat) (fuel : Nat)
    (st : ReplicateState J) (t : String) (hbs : 1 ≤ bs)
    (hn : n ≠ ALL_MESSAGES)
    (hsub : st.src.subscribed_topic_str = some t)
    (hres : (replicateLoop ext reg target_topic_str transform kt vt keep n
      bs fuel st).1 = .ok ()) :
    (replicateLoop ext reg target_topic_str transform kt vt keep n bs fuel
        st).2.message_counter_int +
      (replicateLoop ext reg target_topic_str transform kt vt keep n bs
        fuel st).2.pending.length =
      st.message_counter_int + st.pending.length ∧
    ((replicateLoop ext reg target_topic_str transform kt vt keep n bs fuel
        st).2.pending = [] ∨
      n ≤ ((replicateLoop ext reg target_topic_str transform kt vt keep n
        bs fuel st).2.message_counter_int : Int)) ∧
    ((st.message_counter_int : Int) < n →
      ((replicateLoop ext reg target_topic_str transform kt vt keep n bs
        fuel st).2.message_counter_int : Int) < n + bs) ∧
    ((replicateLoop ext reg target_topic_str transform kt vt keep n bs fuel
        st).2.message_counter_int % bs = st.message_counter_int % bs ∨
      (replicateLoop ext reg target_topic_str transform kt vt keep n bs
        fuel st).2.pending = []) ∧
    st.message_counter_int ≤ (replicateLoop ext reg target_topic_str
      transform kt vt keep n bs fuel st).2.message_counter_int := by
  induction fuel generalizing st with
  | zero => exact Except.noConfusion hres
  | succ f ih =>
    cases hcd : consumeDecode ext reg (st.pending.take bs)
        (st.src.subscribed_key_type_str.getD "")
        (st.src.subscribed_value_type_str.getD "") st.src with
    | mk rcd stcd =>
      have hcds : subFields stcd = subFields st.src := by
        have h := subFields_consumeDecode J ext reg (st.pending.take bs)
          (st.src.subscribed_key_type_str.getD "")
          (st.src.subscribed_value_type_str.getD "") st.src
        rw [hcd] at h
        exact h
      cases rcd with
      | error e =>
        rw [replicateLoop_succ_err ext reg target_topic_str transform kt vt
          keep n bs f st t e stcd hsub hcd] at hres
        exact Except.noConfusion hres
      | ok mds =>
        cases mds with
        | nil =>
          rw [replicateLoop_succ_nil ext reg target_topic_str transform kt
            vt keep n bs f st t stcd hsub hcd] at hres ⊢
          have hlen0 : (st.pending.take bs).length = 0 := by
            have h := consumeDecode_length J ext reg (st.pending.take bs)
              (st.src.subscribed_key_type_str.getD "")
              (st.src.subscribed_value_type_str.getD "") st.src stcd [] hcd
            exact h.symm
          rw [List.length_take] at hlen0
          refine ⟨?_, ?_, ?_, ?_, ?_⟩
          · show st.message_counter_int + (st.pending.drop bs).length =
              st.message_counter_int + st.pending.length
            rw [List.length_drop]
            omega
          · exact Or.inl (List.drop_eq_nil_of_le (by omega))
          · intro h
            show (st.message_counter_int : Int) < n + bs
            omega
          · exact Or.inl rfl
          · exact Nat.le_refl _
        | cons md0 mds2 =>
          have hlen : (md0 :: mds2).length = min bs st.pending.length := by
            have h := consumeDecode_length J ext reg (st.pending.take bs)
              (st.src.subscribed_key_type_str.getD "")
              (st.src.subscribed_value_type_str.getD "") st.src stcd
              (md0 :: mds2) hcd
            rw [List.length_take] at h
            exact h
          cases hpb : processBatch ext reg target_topic_str transform kt vt
              keep (md0 :: mds2)
              { st with src := stcd, pending := st.pending.drop bs } with
          | mk rpb st2 =>
            have hfr := processBatch_frame ext reg target_topic_str
              transform kt vt keep (md0 :: mds2)
              { st with src := stcd, pending := st.pending.drop bs }
            rw [hpb] at hfr
            have hfr1 : st2.src = stcd := hfr.1
            have hfr2 : st2.pending = st.pending.drop bs := hfr.2.1
            have hfr3 : st2.message_counter_int = st.message_counter_int :=
              hfr.2.2
            have hplen : st2.pending.length = st.pending.length - bs := by
              rw [hfr2, List.length_drop]
            cases rpb with
            | error e =>
              have hstep : replicateLoop ext reg target_topic_str transform
                  kt vt keep n bs (f + 1) st = (.error e, st2) := by
                rw [replicateLoop_succ_cons ext reg target_topic_str
                  transform kt vt keep n bs f st t md0 mds2 stcd hsub hcd,
                  hpb]
              rw [hstep] at hres
              exact Except.noConfusion hres
            | ok u =>
              cases u
              have hstep : replicateLoop ext reg target_topic_str transform
                  kt vt keep n bs (f + 1) st =
                  (if n ≠ ALL_MESSAGES ∧
                      n ≤ ((st2.message_counter_int +
                        (md0 :: mds2).length : Nat) : Int) then
                    ((Except.ok (), { st2 with message_counter_int :=
                      st2.message_counter_int + (md0 :: mds2).length }) :
                      Except KashError Unit × ReplicateState J)
                  else
                    replicateLoop ext reg target_topic_str transform kt vt
                      keep n bs f { st2 with message_counter_int :=
                        st2.message_counter_int + (md0 :: mds2).length
                      }) := by
                rw [replicateLoop_succ_cons ext reg target_topic_str
                  transform kt vt keep n bs f st t md0 mds2 stcd hsub hcd,
                  hpb]
              rw [hstep] at hres ⊢
              by_cases hcond : (n ≠ ALL_MESSAGES ∧
                  n ≤ ((st2.message_counter_int +
                    (md0 :: mds2).length : Nat) : Int))
              · rw [if_pos hcond] at hres ⊢
                refine ⟨?_, ?_, ?_, ?_, ?_⟩
                · show st2.message_counter_int + (md0 :: mds2).length +
                    st2.pending.length =
                    st.message_counter_int + st.pending.length
                  omega
                · exact Or.inr hcond.2
                · intro h
                  show ((st2.message_counter_int + (md0 :: mds2).length :
                    Nat) : Int) < n + bs
                  omega
                · cases le_or_lt bs st.pending.length with
                  | inl hle =>
                    refine Or.inl ?_
                    show (st2.message_counter_int + (md0 :: mds2).length) %
                      bs = st.message_counter_int % bs
                    have hlb : (md0 :: mds2).length = bs := by omega
                    rw [hlb, Nat.add_mod_right, hfr3]
                  | inr hlt =>
                    refine Or.inr ?_
                    show st2.pending = []
                    rw [hfr2]
                    exact List.drop_eq_nil_of_le (by omega)
                · show st.message_counter_int ≤
                    st2.message_counter_int + (md0 :: mds2).length
                  omega
              · rw [if_neg hcond] at hres ⊢
                have hnle : ¬ n ≤ ((st2.message_counter_int +
                    (md0 :: mds2).length : Nat) : Int) :=
                  fun hb => hcond ⟨hn, hb⟩
                set st3 : ReplicateState J :=
                  { st2 with message_counter_int :=
                    st2.message_counter_int + (md0 :: mds2).length }
                  with hst3
                have h3c : st3.message_counter_int =
                    st2.message_counter_int + (md0 :: mds2).length := rfl
                have h3p : st3.pending = st2.pending := rfl
                have h3plen : st3.pending.length =
                    st.pending.length - bs := by
                  rw [h3p]
                  exact hplen
                have hsub3 : st3.src.subscribed_topic_str = some t := by
                  show st2.src.subscribed_topic_str = some t
                  rw [hfr1]
                  exact (congrArg Prod.fst hcds).trans hsub
                obtain ⟨ih1, ih2, ih3, ih4, ih5⟩ := ih st3 hsub3 hres
                refine ⟨?_, ?_, ?_, ?_, ?_⟩
                · omega
                · exact ih2
                · intro h
                  exact ih3 (by omega)
                · rcases ih4 with h4 | h4
                  · cases le_or_lt bs st.pending.length with
                    | inl hle =>
                      refine Or.inl ?_
                      have hlb : (md0 :: mds2).length = bs := by omega
                      rw [h4, h3c, hlb, Nat.add_mod_right, hfr3]
                    | inr hlt =>
                      refine Or.inr ?_
                      have hl0 : (replicateLoop ext reg target_topic_str
                          transform kt vt keep n bs f
                          st3).2.pending.length = 0 := by
                        omega
                      exact List.eq_nil_of_length_eq_zero hl0
                  · exact Or.inr h4
                · omega

theorem downloadLoop_counter {J : Type} (ext : Externals J)
    (reg : Registry) (kvs : Option (List Nat)) (msep : List Nat)
    (n : Int) (bs : Nat) (fuel : Nat) (st : DownloadState J) (t : String)
    (hbs : 1 ≤ bs) (hn : n ≠ ALL_MESSAGES)
    (hsub : st.cl.subscribed_topic_str = some t)
    (hres : (downloadLoop ext reg kvs msep n bs fuel st).1 = .ok ()) :
    (downloadLoop ext reg kvs msep n bs fuel st).2.message_counter_int +
      (downloadLoop ext reg kvs msep n bs fuel st).2.pending.length =
      st.message_counter_int + st.pending.length ∧
    ((downloadLoop ext reg kvs msep n bs fuel st).2.pending = [] ∨
      n ≤ ((downloadLoop ext reg kvs msep n bs fuel
        st).2.message_counter_int : Int)) ∧
    ((st.message_counter_int : Int) < n →
      ((downloadLoop ext reg kvs msep n bs fuel
        st).2.message_counter_int : Int) < n + bs) ∧
    ((downloadLoop ext reg kvs msep n bs fuel st).2.message_counter_int %
        bs = st.message_counter_int % bs ∨
      (downloadLoop ext reg kvs msep n bs fuel st).2.pending = []) ∧
    st.message_counter_int ≤
      (downloadLoop ext reg kvs msep n bs fuel st).2.message_counter_int := by
  induction fuel generalizing st with
  | zero => exact Except.noConfusion hres
  | succ f ih =>
    cases hcd : consumeDecode ext reg (st.pending.take bs)
        (st.cl.subscribed_key_type_str.getD "")
        (st.cl.subscribed_value_type_str.getD "") st.cl with
    | mk rcd stcd =>
      have hcds : subFields stcd = subFields st.cl := by
        have h := subFields_consumeDecode J ext reg (st.pending.take bs)
          (st.cl.subscribed_key_type_str.getD "")
          (st.cl.subscribed_value_type_str.getD "") st.cl
        rw [hcd] at h
        exact h
      cases rcd with
      | error e =>
        rw [downloadLoop_succ_err ext reg kvs msep n bs f st t e stcd hsub
          hcd] at hres
        exact Except.noConfusion hres
      | ok mds =>
        cases mds with
        | nil =>
          rw [downloadLoop_succ_nil ext reg kvs msep n bs f st t stcd hsub
            hcd] at hres ⊢
          have hlen0 : (st.pending.take bs).length = 0 := by
            have h := consumeDecode_length J ext reg (st.pending.take bs)
              (st.cl.subscribed_key_type_str.getD "")
              (st.cl.subscribed_value_type_str.getD "") st.cl stcd [] hcd
            exact h.symm
          rw [List.length_take] at hlen0
          refine ⟨?_, ?_, ?_, ?_, ?_⟩
          · show st.message_counter_int + (st.pending.drop bs).length =
              st.message_counter_int + st.pending.length
            rw [List.length_drop]
            omega
          · exact Or.inl (List.drop_eq_nil_of_le (by omega))
          · intro h
            show (st.message_counter_int : Int) < n + bs
            omega
          · exact Or.inl rfl
          · exact Nat.le_refl _
        | cons md0 mds2 =>
          have hlen : (md0 :: mds2).length = min bs st.pending.length := by
            have h := consumeDecode_length J ext reg (st.pending.take bs)
              (st.cl.subscribed_key_type_str.getD "")
              (st.cl.subscribed_value_type_str.getD "") st.cl stcd
              (md0 :: mds2) hcd
            rw [List.length_take] at h
            exact h
          rw [downloadLoop_succ_cons ext reg kvs msep n bs f st t md0 mds2
            stcd hsub hcd] at hres ⊢
          by_cases hcond : (n ≠ ALL_MESSAGES ∧
              n ≤ ((st.message_counter_int + (md0 :: mds2).length : Nat) :
                Int))
          · rw [if_pos hcond] at hres ⊢
            refine ⟨?_, ?_, ?_, ?_, ?_⟩
            · show st.message_counter_int + (md0 :: mds2).length +
                (st.pending.drop bs).length =
                st.message_counter_int + st.pending.length
              rw [List.length_drop]
              omega
            · exact Or.inr hcond.2
            · intro h
              show ((st.message_counter_int + (md0 :: mds2).length : Nat) :
                Int) < n + bs
              omega
            · cases le_or_lt bs st.pending.length with
              | inl hle =>
                refine Or.inl ?_
                show (st.message_counter_int + (md0 :: mds2).length) % bs =
                  st.message_counter_int % bs
                have hlb : (md0 :: mds2).length = bs := by omega
                rw [hlb]
                exact Nat.add_mod_right _ _
              | inr hlt =>
                refine Or.inr ?_
                show st.pending.drop bs = []
                exact List.drop_eq_nil_of_le (by omega)
            · show st.message_counter_int ≤
                st.message_counter_int + (md0 :: mds2).length
              omega
          · rw [if_neg hcond] at hres ⊢
            have hnle : ¬ n ≤ ((st.message_counter_int +
                (md0 :: mds2).length : Nat) : Int) :=
              fun hb => hcond ⟨hn, hb⟩
            set st4 : DownloadState J :=
              { st with cl := stcd,
                        pending := st.pending.drop bs,
                        lines := st.lines ++
                          downloadBatchLines ext kvs msep (md0 :: mds2),
                        message_counter_int :=
                          st.message_counter_int + (md0 :: mds2).length }
              with hst4
            have h4c : st4.message_counter_int =
                st.message_counter_int + (md0 :: mds2).length := rfl
            have h4plen : st4.pending.length =
                st.pending.length - bs := by
              show (st.pending.drop bs).length = st.pending.length - bs
              rw [List.length_drop]
            have hsub4 : st4.cl.subscribed_topic_str = some t := by
              show stcd.subscribed_topic_str = some t
              exact (congrArg Prod.fst hcds).trans hsub
            obtain ⟨ih1, ih2, ih3, ih4, ih5⟩ := ih st4 hsub4 hres
            refine ⟨?_, ?_, ?_, ?_, ?_⟩
            · omega
            · exact ih2
            · intro h
              exact ih3 (by omega)
            · rcases ih4 with h4 | h4
              · cases le_or_lt bs st.pending.length with
                | inl hle =>
                  refine Or.inl ?_
                  have hlb : (md0 :: mds2).length = bs := by omega
                  rw [h4, h4c, hlb, Nat.add_mod_right]
                | inr hlt =>
                  refine Or.inr ?_
                  have hl0 : (downloadLoop ext reg kvs msep n bs f
                      st4).2.pending.length = 0 := by
                    omega
                  exact List.eq_nil_of_length_eq_zero hl0
              · exact Or.inr h4
            · omega

/-- Six pending source messages. -/
def c4msgs : List RawMessage :=
  [offsetMsg 0, offsetMsg 1, offsetMsg 2, offsetMsg 3, offsetMsg 4,
   offsetMsg 5]

/-- A `replicate` run with budget `n = 5` and `batch_size = 2` over six
messages: it consumes three full batches, 6 messages in total. -/
def c4rep : Except KashError Unit × ReplicateState Unit :=
  replicate extU noStore "t" "t2" Option.none "bytes" "bytes" true 5 2 {}
    c4msgs

/-- The matching `download` run, also `n = 5`, `batch_size = 2`. -/
def c4dl : Except KashError Unit × DownloadState Unit :=
  download extU noStore "t" [] "bytes" "bytes" Option.none [] true 5 2 {}
    c4msgs

/-- C4: for a successful `replicate` or `download` run with a positive
batch size and a finite positive message budget `n`: when at least `n`
messages are pending the run consumes at least `n`; the final message
count is a whole number of batches unless the stream was drained (no
mid-batch truncation); and the count stays below `n + batch_size` (the
loop stops right after the batch that reaches the budget). -/
theorem C4_batch_budget (J : Type) (ext : Externals J) (reg : Registry)
    (source_topic_str target_topic_str : String)
    (transform : Option (MessageDict J → Except KashError (MessageDict J)))
    (kt vt : String) (keep : Bool) (file0 : List (List Nat))
    (kvs : Option (List Nat)) (msep : List Nat) (ow : Bool)
    (n : Int) (bs : Nat) (cl0 : ClusterState)
    (pending0 : List RawMessage) (hbs : 1 ≤ bs) (hn : 0 < n) :
    ((replicate ext reg source_topic_str target_topic_str transform kt vt
        keep n bs cl0 pending0).1 = .ok () →
      ((n ≤ (pending0.length : Int)) →
        n ≤ ((replicate ext reg source_topic_str target_topic_str transform
          kt vt keep n bs cl0 pending0).2.message_counter_int : Int)) ∧
      ((replicate ext reg source_topic_str target_topic_str transform kt vt
          keep n bs cl0 pending0).2.message_counter_int % bs = 0 ∨
        (replicate ext reg source_topic_str target_topic_str transform kt
          vt keep n bs cl0 pending0).2.message_counter_int =
          pending0.length) ∧
      (((replicate ext reg source_topic_str target_topic_str transform kt
        vt keep n bs cl0 pending0).2.message_counter_int : Int) < n + bs)) ∧
    ((download ext reg source_topic_str file0 kt vt kvs msep ow n bs cl0
        pending0).1 = .ok () →
      ((n ≤ (pending0.length : Int)) →
        n ≤ ((download ext reg source_topic_str file0 kt vt kvs msep ow n
          bs cl0 pending0).2.message_counter_int : Int)) ∧
      ((download ext reg source_topic_str file0 kt vt kvs msep ow n bs cl0
          pending0).2.message_counter_int % bs = 0 ∨
        (download ext reg source_topic_str file0 kt vt kvs msep ow n bs
          cl0 pending0).2.message_counter_int = pending0.length) ∧
      (((download ext reg source_topic_str file0 kt vt kvs msep ow n bs
        cl0 pending0).2.message_counter_int : Int) < n + bs)) := by
  have hn2 : n ≠ ALL_MESSAGES := by
    show n ≠ -1
    omega
  constructor
  · intro hok
    simp only [replicate] at hok ⊢
    cases hloop : replicateLoop ext reg target_topic_str transform kt vt
        keep n bs (pending0.length + 1)
        { src := subscribe source_topic_str kt vt cl0,
          pending := pending0, produced := [],
          timestamp_int := Option.none, message_counter_int := 0 } with
    | mk lr lst =>
      rw [hloop] at hok
      cases lr with
      | error e => exact Except.noConfusion hok
      | ok u =>
        cases u
        have hres2 : (replicateLoop ext reg target_topic_str transform kt
            vt keep n bs (pending0.length + 1)
            { src := subscribe source_topic_str kt vt cl0,
              pending := pending0, produced := [],
              timestamp_int := Option.none,
              message_counter_int := 0 }).1 = .ok () := by
          rw [hloop]
        obtain ⟨i1, i2, i3, i4, i5⟩ := replicateLoop_counter ext reg
          target_topic_str transform kt vt keep n bs
          (pending0.length + 1)
          { src := subscribe source_topic_str kt vt cl0,
            pending := pending0, produced := [],
            timestamp_int := Option.none, message_counter_int := 0 }
          source_topic_str hbs hn2 rfl hres2
        rw [hloop] at i1 i2 i3 i4 i5
        refine ⟨?_, ?_, ?_⟩
        · intro hnp
          show n ≤ (lst.message_counter_int : Int)
          rcases i2 with h | h
          · have hl0 : lst.pending.length = 0 := by rw [h]; rfl
            have i1' : lst.message_counter_int + lst.pending.length =
                0 + pending0.length := i1
            omega
          · exact h
        · rcases i4 with h | h
          · refine Or.inl ?_
            show lst.message_counter_int % bs = 0
            have h' : lst.message_counter_int % bs = 0 % bs := h
            rw [Nat.zero_mod] at h'
            exact h'
          · refine Or.inr ?_
            show lst.message_counter_int = pending0.length
            have hl0 : lst.pending.length = 0 := by rw [h]; rfl
            have i1' : lst.message_counter_int + lst.pending.length =
                0 + pending0.length := i1
            omega
        · show (lst.message_counter_int : Int) < n + bs
          have i3' : ((0 : Nat) : Int) < n →
              (lst.message_counter_int : Int) < n + bs := i3
          exact i3' (by omega)
  · intro hok
    simp only [download] at hok ⊢
    cases hloop : downloadLoop ext reg kvs msep n bs
        (pending0.length + 1)
        { cl := subscribe source_topic_str kt vt cl0,
          pending := pending0, lines := if ow then [] else file0,
          message_counter_int := 0 } with
    | mk lr lst =>
      rw [hloop] at hok
      cases lr with
      | error e => exact Except.noConfusion hok
      | ok u =>
        cases u
        have hres2 : (downloadLoop ext reg kvs msep n bs
            (pending0.length + 1)
            { cl := subscribe source_topic_str kt vt cl0,
              pending := pending0, lines := if ow then [] else file0,
              message_counter_int := 0 }).1 = .ok () := by
          rw [hloop]
        obtain ⟨i1, i2, i3, i4, i5⟩ := downloadLoop_counter ext reg kvs
          msep n bs (pending0.length + 1)
          { cl := subscribe source_topic_str kt vt cl0,
            pending := pending0, lines := if ow then [] else file0,
            message_counter_int := 0 }
          source_topic_str hbs hn2 rfl hres2
        rw [hloop] at i1 i2 i3 i4 i5
        refine ⟨?_, ?_, ?_⟩
        · intro hnp
          show n ≤ (lst.message_counter_int : Int)
          rcases i2 with h | h
          · have hl0 : lst.pending.length = 0 := by rw [h]; rfl
            have i1' : lst.message_counter_int + lst.pending.length =
                0 + pending0.length := i1
            omega
          · exact h
        · rcases i4 with h | h
          · refine Or.inl ?_
            show lst.message_counter_int % bs = 0
            have h' : lst.message_counter_int % bs = 0 % bs := h
            rw [Nat.zero_mod] at h'
            exact h'
          · refine Or.inr ?_
            show lst.message_counter_int = pending0.length
            have hl0 : lst.pending.length = 0 := by rw [h]; rfl
            have i1' : lst.message_counter_int + lst.pending.length =
                0 + pending0.length := i1
            omega
        · show (lst.message_counter_int : Int) < n + bs
          have i3' : ((0 : Nat) : Int) < n →
              (lst.message_counter_int : Int) < n + bs := i3
          exact i3' (by omega)

/-- C4 witness: the budget theorem at `n = 5`, `batch_size = 2` over six
pending messages; both runs consume exactly three full batches of 2. -/
theorem C4_witness :
    (5 : Int) ≤ (c4rep.2.message_counter_int : Int) ∧
    c4rep.2.message_counter_int % 2 = 0 ∧
    ((c4rep.2.message_counter_int : Int) < 5 + 2) ∧
    (5 : Int) ≤ (c4dl.2.message_counter_int : Int) ∧
    c4dl.2.message_counter_int % 2 = 0 ∧
    ((c4dl.2.message_counter_int : Int) < 5 + 2) := by
  have h := C4_batch_budget Unit extU noStore "t" "t2" Option.none "bytes"
    "bytes" true [] Option.none [] true 5 2 {} c4msgs (by decide)
    (by decide)
  obtain ⟨h1, h2⟩ := h
  have hA := h1 rfl
  have hB := h2 rfl
  refine ⟨hA.1 (by decide), ?_, hA.2.2, hB.1 (by decide), ?_, hB.2.2⟩
  · rcases hA.2.1 with h | h
    · exact h
    · have h' : c4rep.2.message_counter_int = c4msgs.length := h
      rw [h']
      decide
  · rcases hB.2.1 with h | h
    · exact h
    · have h' : c4dl.2.message_counter_int = c4msgs.length := h
      rw [h']
      decide

end Kash
